import Mathlib

/-!
# Verification of the explorer indexer against its specification

Shallow embedding of the explorer repository:

* the per-level flat-file Merkle hash store
  (`internal/explorerutil/hashstore.go`),
* the SQLite-backed transactional KV store (`explorerutil` SQLite store),
* the apply/revert update engine (`explorer.go`),
* the HTTP route table of the API server (`api/server.go`).

Machine integers (`uint64`) are modelled as `Nat`; an explicit `% 2 ^ 64`
appears exactly where the Go code can overflow.  Fallible operations return
`Except`.  A Go run-time panic (e.g. `make` with a negative length) is
modelled by a dedicated error constructor, documented at its definition.
-/

namespace ExplorerModel

/-! ## Domain types

Consensus types (`go.sia.tech/core/types`) are external to the repository;
they are modelled with exactly the fields the embedded code reads.
Identifiers (addresses, element ids, transaction ids, 32-byte hashes) are
opaque; they are represented by `Nat` wrappers, and the injective binary or
textual encodings used for KV keys are represented by the values themselves.
-/

/-- A 32-byte hash (`types.Hash256`), opaque. -/
abbrev Hash256 := Nat

/-- A 32-byte spend-destination identifier (`types.Address`), opaque. -/
structure Address where
  val : Nat
deriving DecidableEq, Repr

/-- Identifier of an accumulator leaf (`types.ElementID`), opaque. -/
structure ElementID where
  val : Nat
deriving DecidableEq, Repr

/-- A transaction identifier (`types.TransactionID`), opaque. -/
structure TransactionID where
  val : Nat
deriving DecidableEq, Repr

/-- `types.ChainIndex`: `(Height, BlockID)` pair naming a block.  Its
canonical textual form (`ChainIndex.String()`) is injective, so tables keyed
by that string are modelled as keyed by the index itself. -/
structure ChainIndex where
  height : Nat
  blockID : Nat
deriving DecidableEq, Repr

/-- `types.StateElement`: leaf index plus Merkle proof. -/
structure StateElement where
  id : ElementID
  leafIndex : Nat
  merkleProof : List Hash256
deriving DecidableEq, Repr

/-- `types.SiacoinOutput`. -/
structure SiacoinOutput where
  value : Nat
  address : Address
deriving DecidableEq, Repr

/-- `types.SiacoinElement`: a state element with a siacoin payload. -/
structure SiacoinElement where
  se : StateElement
  address : Address
  value : Nat
  maturityHeight : Nat
deriving DecidableEq, Repr

/-- `types.SiafundElement`: a state element with a siafund payload. -/
structure SiafundElement where
  se : StateElement
  address : Address
  value : Nat
deriving DecidableEq, Repr

/-- `types.FileContract`: the fields read by the engine. -/
structure FileContract where
  filesize : Nat
  renterOutput : SiacoinOutput
  hostOutput : SiacoinOutput
deriving DecidableEq, Repr

/-- `types.FileContractElement`: a state element with contract terms. -/
structure FileContractElement where
  se : StateElement
  fileContract : FileContract
deriving DecidableEq, Repr

/-- `types.SiacoinInput`: the engine reads only `Parent`. -/
structure SiacoinInput where
  parent : SiacoinElement
deriving DecidableEq, Repr

/-- `types.SiafundInput`: the engine reads only `Parent`. -/
structure SiafundInput where
  parent : SiafundElement
deriving DecidableEq, Repr

/-- `types.SiafundOutput`. -/
structure SiafundOutput where
  value : Nat
  address : Address
deriving DecidableEq, Repr

/-- `types.FileContractRevision`: the engine reads only `Parent`. -/
structure FileContractRevision where
  parent : FileContractElement
deriving DecidableEq, Repr

/-- `types.Transaction`, with the fields the embedded code reads. `txid`
models the transaction hash `txn.ID()` (injective, computed externally). -/
structure Transaction where
  txid : TransactionID
  siacoinInputs : List SiacoinInput
  siacoinOutputs : List SiacoinOutput
  siafundInputs : List SiafundInput
  siafundOutputs : List SiafundOutput
  fileContractRevisions : List FileContractRevision
deriving DecidableEq, Repr

/-- `types.Block`: `index` models `Block.Header.Index()`. -/
structure Block where
  index : ChainIndex
  transactions : List Transaction
deriving DecidableEq, Repr

/-- `explorer.ChainStats` (the struct is referenced field-by-field in
`explorer.go`; counters are modelled on `Nat`, `types.Currency` sums
likewise -- no claim depends on counter wrap-around). -/
structure ChainStats where
  block : Block
  spentSiacoinsCount : Nat
  spentSiafundsCount : Nat
  activeContractCost : Nat
  activeContractCount : Nat
  activeContractSize : Nat
  totalContractCost : Nat
  totalContractSize : Nat
  totalRevisionVolume : Nat
deriving DecidableEq, Repr

/-- `consensus.State`: the engine reads only `Index`; the remainder is
opaque. -/
structure ConsensusState where
  index : ChainIndex
  rest : Nat
deriving DecidableEq, Repr

/-! ## Hash store (`internal/explorerutil/hashstore.go`)

The 64 level files are modelled by a map from level and entry slot to the
entry's 32 bytes: `files lvl slot` is the 32-byte group at byte offset
`slot * 32` of `tree_level_<lvl>.dat`, or `none` when a 32-byte read at
that offset fails or is short (`ReadAt` error).  Writes (`WriteAt`) are
modelled as always succeeding, updating the slot.
-/

/-- Per-level file contents: level, then slot (= byte offset / 32). -/
abbrev HashFiles := Nat → Nat → Option Hash256

/-- Errors of the hash-store operations. `makeNegativeLen` models the Go
run-time panic of `make([]types.Hash256, n)` with negative `n`, which
`MerkleProof` hits when `leafIndex = numLeaves`
(`bits.Len64(leafIndex^numLeaves) - 1 = -1`). -/
inductive HSErr
  | readFailed
  | makeNegativeLen
deriving DecidableEq, Repr

/-- One step of the sibling walk shared by `MerkleProof` and `ModifyLeaf`
(hashstore.go lines 26-30 and 45-49): with `subtreeSize = 2^i = 1<<i`,
if bit `i` of `leafIndex` is 0 then `pos += subtreeSize` else
`pos -= subtreeSize`.  When the branch subtracts, bit `i` of `pos` is set,
so the `Nat` subtraction never truncates and agrees with `uint64`. -/
def sibPos (leafIndex pos i : Nat) : Nat :=
  if leafIndex &&& 2 ^ i = 0 then pos + 2 ^ i else pos - 2 ^ i

/-- The sibling position visited at level `i + j` by the walk that starts
at position `pos` on level `i`. -/
def posChain (leafIndex pos i : Nat) : Nat → Nat
  | 0 => sibPos leafIndex pos i
  | j + 1 => sibPos leafIndex (posChain leafIndex pos i j) (i + (j + 1))

/-- The sibling position visited at level `i` when the walk starts from the
leaf itself, i.e. the `pos` value of iteration `i` of the Go loops. -/
def posAt (leafIndex : Nat) (i : Nat) : Nat :=
  posChain leafIndex leafIndex 0 i

/-- The read loop of `MerkleProof` (hashstore.go lines 24-34): `k` entries
remain, the current level is `i`, `pos` is the running position.  Each
iteration advances `pos` by the sibling rule and reads the 32 bytes at byte
offset `(pos / subtreeSize) * 32` (slot `pos / subtreeSize`) of the level
file; a failed read aborts with the read error. -/
def merkleProofLoop (files : HashFiles) (leafIndex : Nat) :
    Nat → Nat → Nat → Except HSErr (List Hash256)
  | _pos, _i, 0 => .ok []
  | pos, i, k + 1 =>
    let pos2 := sibPos leafIndex pos i
    match files i (pos2 / 2 ^ i) with
    | none => .error .readFailed
    | some h =>
      match merkleProofLoop files leafIndex pos2 (i + 1) k with
      | .ok rest => .ok (h :: rest)
      | .error e => .error e

/-- `(*HashStore).MerkleProof` (hashstore.go lines 21-36).  The proof length
is `bits.Len64(leafIndex ^ numLeaves) - 1` computed in `int`; when
`leafIndex = numLeaves` this is `-1` and the Go `make` panics
(`makeNegativeLen`). -/
def MerkleProof (files : HashFiles) (numLeaves leafIndex : Nat) :
    Except HSErr (List Hash256) :=
  let len : Int := (Nat.size (leafIndex ^^^ numLeaves) : Int) - 1
  if len < 0 then .error .makeNegativeLen
  else merkleProofLoop files leafIndex leafIndex 0 len.toNat

/-- The write loop of `ModifyLeaf` (hashstore.go lines 42-53): for each
proof hash, advance `pos` by the sibling rule and write the hash at byte
offset `(pos / n) * 32` (slot `pos / n`, `n = 2^i`) of the level-`i`
file. -/
def modifyLeafLoop (leafIndex : Nat) :
    HashFiles → Nat → Nat → List Hash256 → HashFiles
  | files, _pos, _i, [] => files
  | files, pos, i, h :: rest =>
    let pos2 := sibPos leafIndex pos i
    let files2 : HashFiles := fun lvl slot =>
      if lvl = i ∧ slot = pos2 / 2 ^ i then some h else files lvl slot
    modifyLeafLoop leafIndex files2 pos2 (i + 1) rest

/-- The hash store's in-memory state: the 64 level files plus `numLeaves`. -/
structure HashStore where
  hashFiles : HashFiles
  numLeaves : Nat

/-- `(*HashStore).ModifyLeaf` (hashstore.go lines 40-58): write the proof
hashes along the sibling path, then
`if elem.LeafIndex+1 > hs.numLeaves { hs.numLeaves = elem.LeafIndex + 1 }`;
the `+ 1` is `uint64` addition, hence the `% 2 ^ 64`. -/
def ModifyLeaf (hs : HashStore) (elem : StateElement) : HashStore :=
  let files2 :=
    modifyLeafLoop elem.leafIndex hs.hashFiles elem.leafIndex 0 elem.merkleProof
  let succ := (elem.leafIndex + 1) % 2 ^ 64
  { hashFiles := files2
    numLeaves := if succ > hs.numLeaves then succ else hs.numLeaves }

/-- The file name opened for level `i`:
`fmt.Sprintf("tree_level_%d.dat", i)`. -/
def levelFileName (i : Nat) : String := "tree_level_" ++ toString i ++ ".dat"

/-- Outcome of `os.OpenFile(..., os.O_CREATE|os.O_RDWR, 0666)` followed by
`f.Stat()` for one file: the resulting file size in bytes (0 for a freshly
created file), or an I/O failure. -/
abbrev DirSizes := String → Except Unit Nat

/-- Errors of `NewHashStore`. `partiallyWrittenHash` is the
"tree contains a partially-written hash" error. -/
inductive OpenErr
  | ioFailure
  | partiallyWrittenHash
deriving DecidableEq, Repr

/-- The open loop of `NewHashStore` (hashstore.go lines 73-89): iterate the
levels starting at `i` with `fuel` levels remaining, carrying the
`numLeaves` computed so far (set from level 0's size divided by 32). -/
def newHashStoreLoop (dir : DirSizes) : Nat → Nat → Nat → Except OpenErr Nat
  | _i, 0, numLeaves => .ok numLeaves
  | i, fuel + 1, numLeaves =>
    match dir (levelFileName i) with
    | .error _ => .error .ioFailure
    | .ok size =>
      if size % 32 ≠ 0 then .error .partiallyWrittenHash
      else newHashStoreLoop dir (i + 1) fuel
        (if i = 0 then size / 32 else numLeaves)

/-- `NewHashStore` (hashstore.go lines 71-91), abstracted to the state it
establishes: opens `tree_level_<i>.dat` for `i ∈ 0..63`, refuses any file
whose size is not a multiple of 32, and returns the initial `numLeaves`
(level-0 size / 32). -/
def NewHashStore (dir : DirSizes) : Except OpenErr Nat :=
  newHashStoreLoop dir 0 64 0

/-! ### Hash-store lemmas and claims -/

/-- Restarting the sibling walk one level up from the already-advanced
position visits the same positions, shifted by one step. -/
theorem posChain_shift (l : Nat) :
    ∀ (j i pos : Nat), posChain l (sibPos l pos i) (i + 1) j = posChain l pos i (j + 1) := by
  intro j
  induction j with
  | zero => intro i pos; rfl
  | succ j ih =>
    intro i pos
    show sibPos l (posChain l (sibPos l pos i) (i + 1) j) ((i + 1) + (j + 1)) = _
    rw [ih]
    show _ = sibPos l (posChain l pos i (j + 1)) (i + (j + 1 + 1))
    have : (i + 1) + (j + 1) = i + (j + 1 + 1) := by omega
    rw [this]

/-- Behaviour of the `MerkleProof` read loop: starting at level `i` with
`k` entries to go, either every read along the sibling path succeeds and the
returned list collects exactly those reads, or the first failing read's
error is returned. -/
theorem merkleProofLoop_spec (files : HashFiles) (l : Nat) :
    ∀ (k i pos : Nat),
      (match merkleProofLoop files l pos i k with
       | .ok proof =>
           proof.length = k ∧
           ∀ j (hj : j < proof.length),
             files (i + j) (posChain l pos i j / 2 ^ (i + j)) = some (proof.get ⟨j, hj⟩)
       | .error e =>
           e = .readFailed ∧
           ∃ j, j < k ∧ files (i + j) (posChain l pos i j / 2 ^ (i + j)) = none) := by
  intro k
  induction k with
  | zero =>
    intro i pos
    simp [merkleProofLoop]
  | succ k ih =>
    intro i pos
    have hrec := ih (i + 1) (sibPos l pos i)
    show (match merkleProofLoop files l pos i (k + 1) with
      | .ok proof => _ | .error e => _)
    rw [merkleProofLoop]
    cases hread : files i (sibPos l pos i / 2 ^ i) with
    | none =>
      refine ⟨rfl, 0, Nat.succ_pos _, ?_⟩
      simpa [posChain] using hread
    | some h =>
      cases hloop : merkleProofLoop files l (sibPos l pos i) (i + 1) k with
      | error e =>
        rw [hloop] at hrec
        obtain ⟨he, j, hj, hnone⟩ := hrec
        refine ⟨he, j + 1, by omega, ?_⟩
        rw [posChain_shift] at hnone
        have : (i + 1) + j = i + (j + 1) := by omega
        rwa [this] at hnone
      | ok rest =>
        rw [hloop] at hrec
        obtain ⟨hlen, hget⟩ := hrec
        refine ⟨by simp [hlen], ?_⟩
        intro j hj
        cases j with
        | zero =>
          simpa [posChain] using hread
        | succ j =>
          have hj2 : j < rest.length := by simp at hj; omega
          have := hget j hj2
          rw [posChain_shift] at this
          have harith : (i + 1) + j = i + (j + 1) := by omega
          rw [harith] at this
          simpa using this

/-- Claim C3 (amended with `leafIndex ≠ numLeaves`): `MerkleProof` returns a
proof of exactly `bits.Len64(leafIndex ^ numLeaves) - 1` hashes, whose entry
`i` is the 32-byte group read at byte offset `(pos_i / 2^i) * 32` (slot
`pos_i / 2^i`) of the level-`i` file, the positions `pos_i` evolving from
`leafIndex` by the sibling rule; if a read along that path fails, the read
error is returned instead.  In particular for `leafIndex = numLeaves - 1`
the proof length is `bits.Len64(leafIndex ^ numLeaves) - 1`, possibly 0. -/
theorem merkleProof_shape (files : HashFiles) (numLeaves leafIndex : Nat)
    (hl : leafIndex < 2 ^ 64) (hn : numLeaves < 2 ^ 64) (hne : leafIndex ≠ numLeaves) :
    (match MerkleProof files numLeaves leafIndex with
     | .ok proof =>
         proof.length = Nat.size (leafIndex ^^^ numLeaves) - 1 ∧
         ∀ j (hj : j < proof.length),
           files j (posAt leafIndex j / 2 ^ j) = some (proof.get ⟨j, hj⟩)
     | .error e =>
         e = .readFailed ∧
         ∃ j, j < Nat.size (leafIndex ^^^ numLeaves) - 1 ∧
           files j (posAt leafIndex j / 2 ^ j) = none) := by
  have hxor : leafIndex ^^^ numLeaves ≠ 0 := by
    intro h
    exact hne (Nat.xor_eq_zero.mp h)
  have hsz : 1 ≤ Nat.size (leafIndex ^^^ numLeaves) := by
    have := Nat.size_pos.mpr (Nat.pos_of_ne_zero hxor)
    omega
  have hlen : ¬ ((Nat.size (leafIndex ^^^ numLeaves) : Int) - 1 < 0) := by
    omega
  have htn : ((Nat.size (leafIndex ^^^ numLeaves) : Int) - 1).toNat
      = Nat.size (leafIndex ^^^ numLeaves) - 1 := by
    omega
  have hmain := merkleProofLoop_spec files leafIndex
    (Nat.size (leafIndex ^^^ numLeaves) - 1) 0 leafIndex
  rw [MerkleProof]
  simp only [hlen, if_false, htn]
  cases hloop : merkleProofLoop files leafIndex leafIndex 0
      (Nat.size (leafIndex ^^^ numLeaves) - 1) with
  | ok proof =>
    rw [hloop] at hmain
    obtain ⟨h1, h2⟩ := hmain
    refine ⟨h1, ?_⟩
    intro j hj
    have := h2 j hj
    simpa [posAt] using this
  | error e =>
    rw [hloop] at hmain
    obtain ⟨he, j, hj, hnone⟩ := hmain
    refine ⟨he, j, hj, ?_⟩
    simpa [posAt] using hnone

/-- Claim C3, witness: a store with `numLeaves = 2` and a readable level-0
file; the proof for leaf 0 has length `bits.Len64(0 ^ 2) - 1 = 1` and its
entry is the slot-1 read of level 0. -/
theorem merkleProof_shape_witness :
    (0 : Nat) < 2 ^ 64 ∧ (2 : Nat) < 2 ^ 64 ∧ (0 : Nat) ≠ 2 ∧
    (match MerkleProof (fun _ _ => some 7) 2 0 with
     | .ok proof =>
         proof.length = Nat.size (0 ^^^ 2) - 1 ∧
         ∀ j (hj : j < proof.length),
           (fun _ _ => some 7 : HashFiles) j (posAt 0 j / 2 ^ j) = some (proof.get ⟨j, hj⟩)
     | .error e =>
         e = .readFailed ∧
         ∃ j, j < Nat.size (0 ^^^ 2) - 1 ∧
           (fun _ _ => some 7 : HashFiles) j (posAt 0 j / 2 ^ j) = none) :=
  ⟨by decide, by decide, by decide,
    merkleProof_shape (fun _ _ => some 7) 2 0 (by decide) (by decide) (by decide)⟩

/-- Claim C3, counterexample to the unrestricted claim: at
`leafIndex = numLeaves` (here a fresh store, `numLeaves = 0`, queried for
leaf 0) the Go code computes `make([]types.Hash256, -1)` and panics, even
though every file read would succeed; it neither returns a proof of the
claimed length nor a read error. -/
theorem merkleProof_at_numLeaves_panics :
    MerkleProof (fun _ _ => some 0) 0 0 = .error .makeNegativeLen ∧
    ∀ proof : List Hash256, MerkleProof (fun _ _ => some 0) 0 0 ≠ .ok proof := by
  have h0 : MerkleProof (fun _ _ => some 0) 0 0 = .error .makeNegativeLen := by
    rw [MerkleProof]
    simp [Nat.size_zero]
  refine ⟨h0, ?_⟩
  intro proof h
  rw [h0] at h
  exact Except.noConfusion h

/-- Behaviour of the `ModifyLeaf` write loop: each proof hash lands in its
sibling slot; slots on other levels and other positions are untouched. -/
theorem modifyLeafLoop_spec (l : Nat) :
    ∀ (proof : List Hash256) (i pos : Nat) (files : HashFiles),
      (∀ lvl slot, lvl < i →
          modifyLeafLoop l files pos i proof lvl slot = files lvl slot) ∧
      (∀ lvl slot, i + proof.length ≤ lvl →
          modifyLeafLoop l files pos i proof lvl slot = files lvl slot) ∧
      (∀ j (hj : j < proof.length),
          modifyLeafLoop l files pos i proof (i + j) (posChain l pos i j / 2 ^ (i + j))
            = some (proof.get ⟨j, hj⟩)) ∧
      (∀ j slot, j < proof.length → slot ≠ posChain l pos i j / 2 ^ (i + j) →
          modifyLeafLoop l files pos i proof (i + j) slot = files (i + j) slot) := by
  intro proof
  induction proof with
  | nil =>
    intro i pos files
    refine ⟨fun _ _ _ => rfl, fun _ _ _ => rfl, ?_, ?_⟩
    · intro j hj; simp at hj
    · intro j slot hj; simp at hj
  | cons h rest ih =>
    intro i pos files
    set pos2 := sibPos l pos i with hpos2
    set files2 : HashFiles := fun lvl slot =>
      if lvl = i ∧ slot = pos2 / 2 ^ i then some h else files lvl slot with hfiles2
    have hstep : modifyLeafLoop l files pos i (h :: rest)
        = modifyLeafLoop l files2 pos2 (i + 1) rest := rfl
    obtain ⟨ihA, ihB, ihC, ihD⟩ := ih (i + 1) pos2 files2
    refine ⟨?_, ?_, ?_, ?_⟩
    · intro lvl slot hlt
      rw [hstep, ihA lvl slot (by omega)]
      have : ¬ (lvl = i ∧ slot = pos2 / 2 ^ i) := by
        intro hc; omega
      simp [hfiles2, this]
    · intro lvl slot hge
      simp only [List.length_cons] at hge
      rw [hstep, ihB lvl slot (by omega)]
      have : ¬ (lvl = i ∧ slot = pos2 / 2 ^ i) := by
        intro hc; omega
      simp [hfiles2, this]
    · intro j hj
      cases j with
      | zero =>
        rw [hstep]
        have hpc : posChain l pos i 0 = pos2 := rfl
        simp only [Nat.add_zero, hpc]
        rw [ihA i (pos2 / 2 ^ i) (by omega)]
        simp [hfiles2]
      | succ j =>
        simp only [List.length_cons] at hj
        have hj2 : j < rest.length := by omega
        have := ihC j hj2
        rw [posChain_shift] at this
        have harith : (i + 1) + j = i + (j + 1) := by omega
        rw [harith] at this
        rw [hstep]
        simpa using this
    · intro j slot hj hne
      cases j with
      | zero =>
        have hpc : posChain l pos i 0 = pos2 := rfl
        rw [hpc, Nat.add_zero] at hne
        rw [hstep]
        simp only [Nat.add_zero]
        rw [ihA i slot (by omega)]
        simp only [hfiles2]
        rw [if_neg (by intro hc; exact hne hc.2)]
      | succ j =>
        simp only [List.length_cons] at hj
        have hj2 : j < rest.length := by omega
        have hne2 : slot ≠ posChain l pos2 (i + 1) j / 2 ^ ((i + 1) + j) := by
          rw [posChain_shift]
          have harith : (i + 1) + j = i + (j + 1) := by omega
          rw [harith]
          exact hne
        have := ihD j slot hj2 hne2
        have harith : (i + 1) + j = i + (j + 1) := by omega
        rw [harith] at this
        rw [hstep, this]
        have : ¬ (i + (j + 1) = i ∧ slot = pos2 / 2 ^ i) := by
          intro hc; omega
        simp [hfiles2, this]

/-- Claim C4: `ModifyLeaf` writes proof hash `i` at slot `pos_i / 2^i`
(byte offset `(pos_i / 2^i) * 32`) of the level-`i` file with `pos_i`
evolving from `LeafIndex` by the sibling rule, for each `i` below the proof
length; all other slots and all levels at or beyond the proof length are
unchanged; afterwards `numLeaves = LeafIndex + 1` exactly when
`LeafIndex + 1 > numLeaves` (so a `LeafIndex = 0` modification of an empty
store grows `numLeaves` to 1). -/
theorem modifyLeaf_spec (hs : HashStore) (elem : StateElement)
    (hl : elem.leafIndex < 2 ^ 64) (hlen : elem.merkleProof.length ≤ 64) :
    (∀ j (hj : j < elem.merkleProof.length),
        (ModifyLeaf hs elem).hashFiles j (posAt elem.leafIndex j / 2 ^ j)
          = some (elem.merkleProof.get ⟨j, hj⟩)) ∧
    (∀ lvl slot, elem.merkleProof.length ≤ lvl →
        (ModifyLeaf hs elem).hashFiles lvl slot = hs.hashFiles lvl slot) ∧
    (∀ j slot, j < elem.merkleProof.length → slot ≠ posAt elem.leafIndex j / 2 ^ j →
        (ModifyLeaf hs elem).hashFiles j slot = hs.hashFiles j slot) ∧
    (elem.leafIndex + 1 < 2 ^ 64 →
        (ModifyLeaf hs elem).numLeaves
          = if elem.leafIndex + 1 > hs.numLeaves then elem.leafIndex + 1 else hs.numLeaves) ∧
    (elem.leafIndex = 0 → hs.numLeaves = 0 → (ModifyLeaf hs elem).numLeaves = 1) := by
  obtain ⟨lA, lB, lC, lD⟩ :=
    modifyLeafLoop_spec elem.leafIndex elem.merkleProof 0 elem.leafIndex hs.hashFiles
  refine ⟨?_, ?_, ?_, ?_, ?_⟩
  · intro j hj
    have := lC j hj
    simpa [ModifyLeaf, posAt] using this
  · intro lvl slot hge
    have := lB lvl slot (by omega)
    simpa [ModifyLeaf] using this
  · intro j slot hj hne
    have hne2 : slot ≠ posChain elem.leafIndex elem.leafIndex 0 j / 2 ^ (0 + j) := by
      simpa [posAt] using hne
    have := lD j slot hj hne2
    simpa [ModifyLeaf] using this
  · intro hsucc
    have hmod : (elem.leafIndex + 1) % 2 ^ 64 = elem.leafIndex + 1 :=
      Nat.mod_eq_of_lt hsucc
    show (if (elem.leafIndex + 1) % 2 ^ 64 > hs.numLeaves
        then (elem.leafIndex + 1) % 2 ^ 64 else hs.numLeaves) = _
    rw [hmod]
  · intro h0 hn0
    simp [ModifyLeaf, h0, hn0]

/-- Claim C4, witness: modifying leaf 0 with a one-hash proof on an empty
store writes level-0 slot 1 and grows `numLeaves` from 0 to 1. -/
theorem modifyLeaf_spec_witness :
    (0 : Nat) < 2 ^ 64 ∧ ([(7 : Hash256)].length ≤ 64) ∧
    (ModifyLeaf ⟨fun _ _ => none, 0⟩ ⟨⟨5⟩, 0, [7]⟩).numLeaves = 1 :=
  ⟨by decide, by decide,
    (modifyLeaf_spec ⟨fun _ _ => none, 0⟩ ⟨⟨5⟩, 0, [7]⟩ (by decide) (by decide)).2.2.2.2
      rfl rfl⟩

/-- For levels at index 1 and above, the open loop of `NewHashStore` never
touches the `numLeaves` accumulator; success means every remaining level
file opened with a 32-aligned size. -/
theorem newHashStoreLoop_ok (dir : DirSizes) :
    ∀ (fuel i acc n : Nat), 1 ≤ i →
      newHashStoreLoop dir i fuel acc = .ok n →
      n = acc ∧
        ∀ j, i ≤ j → j < i + fuel →
          ∃ sz, dir (levelFileName j) = .ok sz ∧ sz % 32 = 0 := by
  intro fuel
  induction fuel with
  | zero =>
    intro i acc n _ h
    refine ⟨by simpa [newHashStoreLoop] using h.symm, ?_⟩
    intro j h1 h2; omega
  | succ fuel ih =>
    intro i acc n hi h
    rw [newHashStoreLoop] at h
    split at h
    · exact absurd h (by simp)
    · rename_i size heq
      by_cases hal : size % 32 ≠ 0
      · rw [if_pos hal] at h; exact absurd h (by simp)
      · rw [if_neg hal] at h
        have hi0 : ¬ i = 0 := by omega
        rw [if_neg hi0] at h
        obtain ⟨hn, hrest⟩ := ih (i + 1) acc n (by omega) h
        refine ⟨hn, ?_⟩
        intro j h1 h2
        rcases Nat.eq_or_lt_of_le h1 with heq2 | hlt
        · exact ⟨size, heq2 ▸ heq, by omega⟩
        · exact hrest j hlt (by omega)

/-- Claim C9: `NewHashStore` consults the files `tree_level_<i>.dat` for
`i ∈ 0..63` (each in create-or-open read/write mode); it succeeds only if
all 64 opens succeed with sizes that are multiples of 32, in which case the
initial `numLeaves` is the level-0 size divided by 32; whenever some level
file's size is not a multiple of 32, it refuses to open. -/
theorem newHashStore_check (dir : DirSizes) :
    (∀ n, NewHashStore dir = .ok n →
       (∀ i, i < 64 → ∃ sz, dir (levelFileName i) = .ok sz ∧ sz % 32 = 0) ∧
       (∃ sz0, dir (levelFileName 0) = .ok sz0 ∧ n = sz0 / 32)) ∧
    ((∃ i, i < 64 ∧ ∃ sz, dir (levelFileName i) = .ok sz ∧ sz % 32 ≠ 0) →
       ∀ n, NewHashStore dir ≠ .ok n) := by
  have hmain : ∀ n, NewHashStore dir = .ok n →
      (∀ i, i < 64 → ∃ sz, dir (levelFileName i) = .ok sz ∧ sz % 32 = 0) ∧
      (∃ sz0, dir (levelFileName 0) = .ok sz0 ∧ n = sz0 / 32) := by
    intro n h
    rw [NewHashStore, newHashStoreLoop] at h
    split at h
    · exact absurd h (by simp)
    · rename_i sz0 heq
      by_cases hal : sz0 % 32 ≠ 0
      · rw [if_pos hal] at h; exact absurd h (by simp)
      · rw [if_neg hal] at h
        rw [if_pos rfl] at h
        obtain ⟨hn, hrest⟩ := newHashStoreLoop_ok dir 63 1 (sz0 / 32) n (by omega) h
        refine ⟨?_, sz0, heq, hn⟩
        intro i hi
        rcases Nat.eq_zero_or_pos i with h0 | hpos
        · exact ⟨sz0, h0 ▸ heq, by omega⟩
        · exact hrest i hpos (by omega)
  refine ⟨hmain, ?_⟩
  rintro ⟨i, hi, sz, hdir, hmis⟩ n hok
  obtain ⟨hall, _⟩ := hmain n hok
  obtain ⟨sz2, hdir2, hal2⟩ := hall i hi
  rw [hdir] at hdir2
  cases hdir2
  omega

/-- Claim C9, witness: a directory where every level file reports 64 bytes
opens with `numLeaves = 2`; a directory reporting 33-byte files is refused. -/
theorem newHashStore_check_witness :
    (NewHashStore (fun _ => .ok 64) = .ok 2) ∧
    NewHashStore (fun _ => .ok 33) ≠ .ok 0 :=
  ⟨rfl,
    fun h => (newHashStore_check (fun _ => .ok 33)).2 ⟨0, by omega, 33, rfl, by decide⟩ 0 h⟩

/-! ## SQLite-backed KV store (`SQLiteStore`, `src/unnamed/part_000`)

Tables are modelled as association lists in insertion order.  Column values
are `Blob`s: the external `types` encoders are deterministic and injective,
so an encoded value is represented by the value itself, tagged by its type
(a decoder applied to a blob of the wrong type reports a decode error).
Keys encoded with `encode(...)` (injective binary form) or
`ChainIndex.String()` (injective textual form) are represented by the key
values themselves. -/

/-- An encoded column value. -/
inductive Blob
  | eid (id : ElementID)
  | sce (e : SiacoinElement)
  | sfe (e : SiafundElement)
  | fce (e : FileContractElement)
  | stats (s : ChainStats)
  | cstate (s : ConsensusState)
  | txn (t : Transaction)
deriving DecidableEq, Repr

/-- The schema created by `createTables`.  Primary keys as declared there:
`elements.id`, `states.id`, `chainstats.id`, `unspentElements.id`,
`transactions.id`; `addressTransactions` has no primary key.  Note that
`elements` is keyed by `id` ALONE (`id BINARY(128) PRIMARY KEY`): the
`type` column is not part of the key. -/
structure Tables where
  elements : List (ElementID × String × Blob)
  states : List (ChainIndex × Blob)
  chainstats : List (ChainIndex × Blob)
  unspentElements : List (ElementID × String × Address)
  transactions : List (TransactionID × Blob)
  addressTransactions : List (Address × TransactionID)
deriving DecidableEq, Repr

/-- The empty schema, as `createTables` leaves a fresh database. -/
def Tables.empty : Tables := ⟨[], [], [], [], [], []⟩

/-- Errors of the store.  `noRows` is `sql.ErrNoRows` (missing key on a
point lookup); `constraintViolation` is SQLite's UNIQUE/PRIMARY KEY error
on `INSERT`; `decodeFailed` is a `types` decoder error; `nilTransaction`
marks `Commit` with no open transaction, where the Go code dereferences a
nil `*sql.Tx` and panics. -/
inductive DBErr
  | noRows
  | constraintViolation
  | decodeFailed
  | nilTransaction
deriving DecidableEq, Repr

/-- `SQLiteStore`: the committed database, the open transaction's pending
table state (Go `tx *sql.Tx`; `none` = no open transaction), and the
deferred error `txErr`. -/
structure SQLiteStore where
  db : Tables
  tx : Option Tables
  txErr : Option DBErr
deriving DecidableEq, Repr

/-- `(*SQLiteStore).beginTx` (part_000 lines 44-48): lazily opens a
transaction; `BeginTx` is modelled as succeeding, so `s.tx, s.txErr =
s.db.BeginTx(...)` sets the pending state to a snapshot of the committed
database and resets `txErr`. -/
def SQLiteStore.beginTx (s : SQLiteStore) : SQLiteStore :=
  match s.tx with
  | some _ => s
  | none => { s with tx := some s.db, txErr := none }

/-- `(*SQLiteStore).execStatement` (part_000 lines 71-84): begin the
transaction if needed; if a deferred error is recorded, drop the write;
otherwise run the statement, recording its error (if any) into `txErr`. -/
def SQLiteStore.execStatement (s0 : SQLiteStore)
    (stmt : Tables → Except DBErr Tables) : SQLiteStore :=
  let s := s0.beginTx
  match s.txErr, s.tx with
  | some _, _ => s
  | none, none => s
  | none, some t =>
    match stmt t with
    | .ok t2 => { s with tx := some t2 }
    | .error e => { s with txErr := some e }

/-- `(*SQLiteStore).queryRow` (part_000 lines 58-69): begin the transaction
if needed; a recorded deferred error is returned; otherwise a missing row
(`Scan` returning `sql.ErrNoRows`) or a decode failure is recorded into
`txErr` and returned; a found row is decoded and returned. -/
def SQLiteStore.queryRow (A : Type) (s0 : SQLiteStore)
    (q : Tables → Option Blob) (dec : Blob → Option A) :
    SQLiteStore × Except DBErr A :=
  let s := s0.beginTx
  match s.txErr, s.tx with
  | some e, _ => (s, .error e)
  | none, none => (s, .error .nilTransaction)
  | none, some t =>
    match q t with
    | none => ({ s with txErr := some .noRows }, .error .noRows)
    | some b =>
      match dec b with
      | none => ({ s with txErr := some .decodeFailed }, .error .decodeFailed)
      | some a => (s, .ok a)

/-- `(*SQLiteStore).Commit` (part_000 lines 87-96): with a deferred error
the transaction is rolled back (pending writes discarded, committed state
untouched) and the error returned, otherwise the pending state is flushed
into the database; either way `s.tx = nil` afterwards (`txErr` is NOT
cleared by `Commit`; the next `beginTx` resets it).  With no open
transaction the Go code dereferences nil (`nilTransaction`). -/
def SQLiteStore.Commit (s : SQLiteStore) : SQLiteStore × Except DBErr Unit :=
  match s.txErr with
  | some e => ({ s with tx := none }, .error e)
  | none =>
    match s.tx with
    | some t => ({ s with db := t, tx := none }, .ok ())
    | none => ({ s with tx := none }, .error .nilTransaction)

/-! ### SQL statements -/

/-- `INSERT INTO elements(id, type, data) VALUES(?, ?, ?)`; fails on a
duplicate `id` (the primary key is `id` alone). -/
def insertElementRow (id : ElementID) (ty : String) (data : Blob)
    (t : Tables) : Except DBErr Tables :=
  if t.elements.any (fun r => r.1 == id) then .error .constraintViolation
  else .ok { t with elements := t.elements ++ [(id, ty, data)] }

/-- `DELETE FROM elements WHERE id=?` (no type filter; always succeeds). -/
def deleteElementRow (id : ElementID) (t : Tables) : Except DBErr Tables :=
  .ok { t with elements := t.elements.filter (fun r => !(r.1 == id)) }

/-- `INSERT INTO states(id, data) VALUES(?, ?)`. -/
def insertStateRow (idx : ChainIndex) (data : Blob)
    (t : Tables) : Except DBErr Tables :=
  if t.states.any (fun r => r.1 == idx) then .error .constraintViolation
  else .ok { t with states := t.states ++ [(idx, data)] }

/-- `INSERT INTO chainstats(id, data) VALUES(?, ?)` (key: `index.String()`). -/
def insertChainStatsRow (idx : ChainIndex) (data : Blob)
    (t : Tables) : Except DBErr Tables :=
  if t.chainstats.any (fun r => r.1 == idx) then .error .constraintViolation
  else .ok { t with chainstats := t.chainstats ++ [(idx, data)] }

/-- `INSERT INTO unspentElements(address, type, id) VALUES(?, ?, ?)`;
fails on a duplicate `id` (the table's primary key). -/
def insertUnspentRow (addr : Address) (ty : String) (id : ElementID)
    (t : Tables) : Except DBErr Tables :=
  if t.unspentElements.any (fun r => r.1 == id) then .error .constraintViolation
  else .ok { t with unspentElements := t.unspentElements ++ [(id, ty, addr)] }

/-- `DELETE FROM unspentElements WHERE address=? AND id=? AND type=?`. -/
def deleteUnspentRow (addr : Address) (id : ElementID) (ty : String)
    (t : Tables) : Except DBErr Tables :=
  .ok { t with unspentElements := t.unspentElements.filter (fun r => !(r.1 == id && r.2.1 == ty && r.2.2 == addr)) }

/-- `INSERT INTO transactions(id, data) VALUES(?, ?)`. -/
def insertTransactionRow (id : TransactionID) (data : Blob)
    (t : Tables) : Except DBErr Tables :=
  if t.transactions.any (fun r => r.1 == id) then .error .constraintViolation
  else .ok { t with transactions := t.transactions ++ [(id, data)] }

/-- `INSERT INTO addressTransactions(address, id) VALUES(?, ?)` (no primary
key; always succeeds). -/
def insertAddrTxnRow (addr : Address) (id : TransactionID)
    (t : Tables) : Except DBErr Tables :=
  .ok { t with addressTransactions := t.addressTransactions ++ [(addr, id)] }

/-! ### Store methods (part_000 lines 98-249) -/

/-- `AddSiacoinElement`. -/
def SQLiteStore.AddSiacoinElement (s : SQLiteStore) (sce : SiacoinElement) :
    SQLiteStore :=
  s.execStatement (insertElementRow sce.se.id "siacoin" (Blob.sce sce))

/-- `AddSiafundElement`. -/
def SQLiteStore.AddSiafundElement (s : SQLiteStore) (sfe : SiafundElement) :
    SQLiteStore :=
  s.execStatement (insertElementRow sfe.se.id "siafund" (Blob.sfe sfe))

/-- `AddFileContractElement`. -/
def SQLiteStore.AddFileContractElement (s : SQLiteStore)
    (fce : FileContractElement) : SQLiteStore :=
  s.execStatement (insertElementRow fce.se.id "contract" (Blob.fce fce))

/-- `RemoveElement`. -/
def SQLiteStore.RemoveElement (s : SQLiteStore) (id : ElementID) :
    SQLiteStore :=
  s.execStatement (deleteElementRow id)

/-- `AddChainStats`. -/
def SQLiteStore.AddChainStats (s : SQLiteStore) (idx : ChainIndex)
    (cs : ChainStats) : SQLiteStore :=
  s.execStatement (insertChainStatsRow idx (Blob.stats cs))

/-- `AddUnspentSiacoinElement`. -/
def SQLiteStore.AddUnspentSiacoinElement (s : SQLiteStore) (addr : Address)
    (id : ElementID) : SQLiteStore :=
  s.execStatement (insertUnspentRow addr "siacoin" id)

/-- `AddUnspentSiafundElement`. -/
def SQLiteStore.AddUnspentSiafundElement (s : SQLiteStore) (addr : Address)
    (id : ElementID) : SQLiteStore :=
  s.execStatement (insertUnspentRow addr "siafund" id)

/-- `RemoveUnspentSiacoinElement`. -/
def SQLiteStore.RemoveUnspentSiacoinElement (s : SQLiteStore) (addr : Address)
    (id : ElementID) : SQLiteStore :=
  s.execStatement (deleteUnspentRow addr id "siacoin")

/-- `RemoveUnspentSiafundElement`. -/
def SQLiteStore.RemoveUnspentSiafundElement (s : SQLiteStore) (addr : Address)
    (id : ElementID) : SQLiteStore :=
  s.execStatement (deleteUnspentRow addr id "siafund")

/-- `AddTransaction`: one `transactions` insert, then one
`addressTransactions` insert per address.  The `block` parameter is unused
by the Go code. -/
def SQLiteStore.AddTransaction (s : SQLiteStore) (txn : Transaction)
    (addresses : List Address) (_block : ChainIndex) : SQLiteStore :=
  let s1 := s.execStatement (insertTransactionRow txn.txid (Blob.txn txn))
  addresses.foldl
    (fun acc addr => acc.execStatement (insertAddrTxnRow addr txn.txid)) s1

/-- `AddState`. -/
def SQLiteStore.AddState (s : SQLiteStore) (idx : ChainIndex)
    (cs : ConsensusState) : SQLiteStore :=
  s.execStatement (insertStateRow idx (Blob.cstate cs))

/-- `SELECT data FROM elements WHERE id=? AND type=?`. -/
def lookupElementRow (id : ElementID) (ty : String) (t : Tables) :
    Option Blob :=
  (t.elements.find? (fun r => r.1 == id && r.2.1 == ty)).map (fun r => r.2.2)

/-- `SELECT data FROM chainstats WHERE id=?`. -/
def lookupChainStatsRow (idx : ChainIndex) (t : Tables) : Option Blob :=
  (t.chainstats.find? (fun r => r.1 == idx)).map (fun r => r.2)

/-- `SiacoinElement` (the read). -/
def SQLiteStore.SiacoinElement (s : SQLiteStore) (id : ElementID) :
    SQLiteStore × Except DBErr ExplorerModel.SiacoinElement :=
  s.queryRow _ (lookupElementRow id "siacoin")
    (fun b => match b with | Blob.sce e => some e | _ => none)

/-- `FileContractElement` (the read). -/
def SQLiteStore.FileContractElement (s : SQLiteStore) (id : ElementID) :
    SQLiteStore × Except DBErr ExplorerModel.FileContractElement :=
  s.queryRow _ (lookupElementRow id "contract")
    (fun b => match b with | Blob.fce e => some e | _ => none)

/-- `ChainStats` (the read). -/
def SQLiteStore.ChainStats (s : SQLiteStore) (idx : ChainIndex) :
    SQLiteStore × Except DBErr ExplorerModel.ChainStats :=
  s.queryRow _ (lookupChainStatsRow idx)
    (fun b => match b with | Blob.stats c => some c | _ => none)

/-! ### Generic write operations (the mutating half of `explorer.Store`) -/

/-- One write call of the `explorer.Store` interface. -/
inductive WriteOp
  | addSiacoinElement (e : SiacoinElement)
  | addSiafundElement (e : SiafundElement)
  | addFileContractElement (e : FileContractElement)
  | removeElement (id : ElementID)
  | addChainStats (idx : ChainIndex) (s : ChainStats)
  | addUnspentSiacoinElement (a : Address) (id : ElementID)
  | addUnspentSiafundElement (a : Address) (id : ElementID)
  | removeUnspentSiacoinElement (a : Address) (id : ElementID)
  | removeUnspentSiafundElement (a : Address) (id : ElementID)
  | addTransaction (txn : Transaction) (addrs : List Address) (blk : ChainIndex)
  | addState (idx : ChainIndex) (cs : ConsensusState)
deriving DecidableEq, Repr

/-- Dispatch one write call to the store. -/
def runWrite (s : SQLiteStore) : WriteOp → SQLiteStore
  | .addSiacoinElement e => s.AddSiacoinElement e
  | .addSiafundElement e => s.AddSiafundElement e
  | .addFileContractElement e => s.AddFileContractElement e
  | .removeElement id => s.RemoveElement id
  | .addChainStats idx st => s.AddChainStats idx st
  | .addUnspentSiacoinElement a id => s.AddUnspentSiacoinElement a id
  | .addUnspentSiafundElement a id => s.AddUnspentSiafundElement a id
  | .removeUnspentSiacoinElement a id => s.RemoveUnspentSiacoinElement a id
  | .removeUnspentSiafundElement a id => s.RemoveUnspentSiafundElement a id
  | .addTransaction txn addrs blk => s.AddTransaction txn addrs blk
  | .addState idx cs => s.AddState idx cs

/-- Run a batch of write calls in order. -/
def runWrites (s : SQLiteStore) (ops : List WriteOp) : SQLiteStore :=
  ops.foldl runWrite s

/-! ### KV-store lemmas -/

/-- `execStatement` never touches the committed database. -/
theorem execStatement_db (s : SQLiteStore) (stmt : Tables → Except DBErr Tables) :
    (s.execStatement stmt).db = s.db := by
  obtain ⟨db, tx, txErr⟩ := s
  cases tx with
  | none =>
    cases h : stmt db <;>
      simp [SQLiteStore.execStatement, SQLiteStore.beginTx, h]
  | some t =>
    cases txErr with
    | none =>
      cases h : stmt t <;>
        simp [SQLiteStore.execStatement, SQLiteStore.beginTx, h]
    | some e =>
      simp [SQLiteStore.execStatement, SQLiteStore.beginTx]

/-- After `execStatement` a transaction is always open. -/
theorem execStatement_tx_isSome (s : SQLiteStore)
    (stmt : Tables → Except DBErr Tables) :
    (s.execStatement stmt).tx.isSome := by
  obtain ⟨db, tx, txErr⟩ := s
  cases tx with
  | none =>
    cases h : stmt db <;>
      simp [SQLiteStore.execStatement, SQLiteStore.beginTx, h]
  | some t =>
    cases txErr with
    | none =>
      cases h : stmt t <;>
        simp [SQLiteStore.execStatement, SQLiteStore.beginTx, h]
    | some e =>
      simp [SQLiteStore.execStatement, SQLiteStore.beginTx]

/-- With an open transaction and a recorded deferred error, a write is
dropped entirely: the whole store is unchanged. -/
theorem execStatement_stuck (s : SQLiteStore) (t : Tables) (e : DBErr)
    (stmt : Tables → Except DBErr Tables)
    (htx : s.tx = some t) (herr : s.txErr = some e) :
    s.execStatement stmt = s := by
  obtain ⟨db, tx, txErr⟩ := s
  cases htx
  cases herr
  simp [SQLiteStore.execStatement, SQLiteStore.beginTx]

/-- The `addressTransactions` insert loop of `AddTransaction` never touches
the committed database. -/
theorem addrFold_db (tid : TransactionID) :
    ∀ (addrs : List Address) (s : SQLiteStore),
      (addrs.foldl (fun acc addr => acc.execStatement (insertAddrTxnRow addr tid)) s).db
        = s.db := by
  intro addrs
  induction addrs with
  | nil => intro s; rfl
  | cons a rest ih =>
    intro s
    rw [List.foldl_cons, ih, execStatement_db]

/-- The insert loop of `AddTransaction` keeps the transaction open. -/
theorem addrFold_tx_isSome (tid : TransactionID) :
    ∀ (addrs : List Address) (s : SQLiteStore), s.tx.isSome →
      (addrs.foldl (fun acc addr => acc.execStatement (insertAddrTxnRow addr tid)) s).tx.isSome := by
  intro addrs
  induction addrs with
  | nil => intro s h; exact h
  | cons a rest ih =>
    intro s _
    rw [List.foldl_cons]
    exact ih _ (execStatement_tx_isSome _ _)

/-- The insert loop of `AddTransaction` is inert once an error is
recorded. -/
theorem addrFold_stuck (tid : TransactionID) :
    ∀ (addrs : List Address) (s : SQLiteStore) (t : Tables) (e : DBErr),
      s.tx = some t → s.txErr = some e →
      (addrs.foldl (fun acc addr => acc.execStatement (insertAddrTxnRow addr tid)) s)
        = s := by
  intro addrs
  induction addrs with
  | nil => intro s t e _ _; rfl
  | cons a rest ih =>
    intro s t e htx herr
    rw [List.foldl_cons, execStatement_stuck s t e _ htx herr,
      ih s t e htx herr]

/-- A store write never touches the committed database. -/
theorem runWrite_db (s : SQLiteStore) (op : WriteOp) :
    (runWrite s op).db = s.db := by
  cases op <;>
    simp [runWrite, SQLiteStore.AddSiacoinElement, SQLiteStore.AddSiafundElement,
      SQLiteStore.AddFileContractElement, SQLiteStore.RemoveElement,
      SQLiteStore.AddChainStats, SQLiteStore.AddUnspentSiacoinElement,
      SQLiteStore.AddUnspentSiafundElement, SQLiteStore.RemoveUnspentSiacoinElement,
      SQLiteStore.RemoveUnspentSiafundElement, SQLiteStore.AddTransaction,
      SQLiteStore.AddState, execStatement_db, addrFold_db]

/-- After any store write a transaction is open. -/
theorem runWrite_tx_isSome (s : SQLiteStore) (op : WriteOp) :
    (runWrite s op).tx.isSome := by
  cases op <;>
    simp [runWrite, SQLiteStore.AddSiacoinElement, SQLiteStore.AddSiafundElement,
      SQLiteStore.AddFileContractElement, SQLiteStore.RemoveElement,
      SQLiteStore.AddChainStats, SQLiteStore.AddUnspentSiacoinElement,
      SQLiteStore.AddUnspentSiafundElement, SQLiteStore.RemoveUnspentSiacoinElement,
      SQLiteStore.RemoveUnspentSiafundElement, SQLiteStore.AddTransaction,
      SQLiteStore.AddState, execStatement_tx_isSome, addrFold_tx_isSome]

/-- A store write is dropped entirely once a deferred error is recorded in
an open transaction. -/
theorem runWrite_stuck (s : SQLiteStore) (t : Tables) (e : DBErr) (op : WriteOp)
    (htx : s.tx = some t) (herr : s.txErr = some e) :
    runWrite s op = s := by
  cases op <;>
    simp [runWrite, SQLiteStore.AddSiacoinElement, SQLiteStore.AddSiafundElement,
      SQLiteStore.AddFileContractElement, SQLiteStore.RemoveElement,
      SQLiteStore.AddChainStats, SQLiteStore.AddUnspentSiacoinElement,
      SQLiteStore.AddUnspentSiafundElement, SQLiteStore.RemoveUnspentSiacoinElement,
      SQLiteStore.RemoveUnspentSiafundElement, SQLiteStore.AddTransaction,
      SQLiteStore.AddState, execStatement_stuck s t e _ htx herr,
      addrFold_stuck _ _ s t e htx herr]

/-- A batch of writes never touches the committed database. -/
theorem runWrites_db (ops : List WriteOp) :
    ∀ (s : SQLiteStore), (runWrites s ops).db = s.db := by
  induction ops with
  | nil => intro s; rfl
  | cons op rest ih =>
    intro s
    show (runWrites (runWrite s op) rest).db = s.db
    rw [ih, runWrite_db]

/-- Batches keep an open transaction open. -/
theorem runWrites_tx_isSome (ops : List WriteOp) :
    ∀ (s : SQLiteStore), s.tx.isSome → (runWrites s ops).tx.isSome := by
  induction ops with
  | nil => intro s h; exact h
  | cons op rest ih =>
    intro s _
    exact ih _ (runWrite_tx_isSome s op)

/-- A whole batch is dropped once a deferred error is recorded in an open
transaction. -/
theorem runWrites_stuck (ops : List WriteOp) :
    ∀ (s : SQLiteStore) (t : Tables) (e : DBErr),
      s.tx = some t → s.txErr = some e → runWrites s ops = s := by
  induction ops with
  | nil => intro s t e _ _; rfl
  | cons op rest ih =>
    intro s t e htx herr
    show runWrites (runWrite s op) rest = s
    rw [runWrite_stuck s t e op htx herr, ih s t e htx herr]

/-- A nonempty batch leaves a transaction open. -/
theorem runWrites_ne_tx_isSome (s : SQLiteStore) (ops : List WriteOp)
    (h : ops ≠ []) : (runWrites s ops).tx.isSome := by
  cases ops with
  | nil => exact absurd rfl h
  | cons op rest =>
    show (runWrites (runWrite s op) rest).tx.isSome
    exact runWrites_tx_isSome rest _ (runWrite_tx_isSome s op)

/-- `Commit` always clears the transaction handle. -/
theorem commit_tx_none (s : SQLiteStore) : (s.Commit).1.tx = none := by
  obtain ⟨db, tx, txErr⟩ := s
  cases txErr <;> cases tx <;> simp [SQLiteStore.Commit]

/-! ### Claim C5 -/

/-- Claim C5: between two commits, write errors are deferred.  Writes only
stage into the open transaction (the committed database is untouched); once
some prefix of the batch records an error, the remaining writes are
silently dropped (the pending state freezes and the recorded error is
still the one commit sees); `Commit` then rolls the transaction back
(committed database unchanged) and returns that first recorded error; a
batch with no error commits the staged pending state into the database;
in both cases the transaction handle is cleared. -/
theorem store_deferred_error_commit (s0 : SQLiteStore) (ops : List WriteOp)
    (h0 : s0.tx = none) (h0e : s0.txErr = none) (hne : ops ≠ []) :
    (runWrites s0 ops).db = s0.db ∧
    (∀ j e, (runWrites s0 (ops.take j)).txErr = some e →
        (runWrites s0 ops).txErr = some e ∧
        (runWrites s0 ops).tx = (runWrites s0 (ops.take j)).tx) ∧
    ((runWrites s0 ops).Commit).1.tx = none ∧
    (∀ e, (runWrites s0 ops).txErr = some e →
        ((runWrites s0 ops).Commit).2 = .error e ∧
        ((runWrites s0 ops).Commit).1.db = s0.db) ∧
    ((runWrites s0 ops).txErr = none →
        ∃ t, (runWrites s0 ops).tx = some t ∧
          ((runWrites s0 ops).Commit).2 = .ok () ∧
          ((runWrites s0 ops).Commit).1.db = t) := by
  refine ⟨runWrites_db ops s0, ?_, commit_tx_none _, ?_, ?_⟩
  · intro j e hj
    have hsplit : runWrites s0 ops = runWrites (runWrites s0 (ops.take j)) (ops.drop j) := by
      rw [runWrites, runWrites, runWrites, ← List.foldl_append, List.take_append_drop]
    have hjne : ops.take j ≠ [] := by
      intro hnil
      rw [hnil] at hj
      rw [show runWrites s0 [] = s0 from rfl, h0e] at hj
      exact Option.noConfusion hj
    obtain ⟨t, ht⟩ := Option.isSome_iff_exists.mp (runWrites_ne_tx_isSome s0 _ hjne)
    have hstuck := runWrites_stuck (ops.drop j) (runWrites s0 (ops.take j)) t e ht hj
    rw [hsplit, hstuck]
    exact ⟨hj, rfl⟩
  · intro e he
    have hdb : (runWrites s0 ops).db = s0.db := runWrites_db ops s0
    have hc : (runWrites s0 ops).Commit
        = (⟨(runWrites s0 ops).db, none, some e⟩, .error e) := by
      unfold SQLiteStore.Commit
      rw [he]
    rw [hc]
    exact ⟨rfl, hdb⟩
  · intro he
    obtain ⟨t, ht⟩ := Option.isSome_iff_exists.mp (runWrites_ne_tx_isSome s0 ops hne)
    have hc : (runWrites s0 ops).Commit = (⟨t, none, none⟩, .ok ()) := by
      unfold SQLiteStore.Commit
      rw [he, ht]
    exact ⟨t, ht, by rw [hc], by rw [hc]⟩

/-- Claim C5, witness: a two-write batch whose second write collides with
the first on the `elements` primary key; commit reports the constraint
error and leaves the committed database empty. -/
theorem store_deferred_error_commit_witness :
    ((⟨Tables.empty, none, none⟩ : SQLiteStore).tx = none ∧
      (⟨Tables.empty, none, none⟩ : SQLiteStore).txErr = none ∧
      ([WriteOp.addSiacoinElement ⟨⟨⟨1⟩, 0, []⟩, ⟨2⟩, 100, 0⟩,
        WriteOp.addSiacoinElement ⟨⟨⟨1⟩, 0, []⟩, ⟨2⟩, 100, 0⟩] ≠ ([] : List WriteOp))) ∧
    (runWrites ⟨Tables.empty, none, none⟩
        [WriteOp.addSiacoinElement ⟨⟨⟨1⟩, 0, []⟩, ⟨2⟩, 100, 0⟩,
         WriteOp.addSiacoinElement ⟨⟨⟨1⟩, 0, []⟩, ⟨2⟩, 100, 0⟩]).db = Tables.empty :=
  ⟨⟨rfl, rfl, by decide⟩,
    (store_deferred_error_commit ⟨Tables.empty, none, none⟩
      [WriteOp.addSiacoinElement ⟨⟨⟨1⟩, 0, []⟩, ⟨2⟩, 100, 0⟩,
       WriteOp.addSiacoinElement ⟨⟨⟨1⟩, 0, []⟩, ⟨2⟩, 100, 0⟩]
      rfl rfl (by decide)).1⟩

/-! ### Claim C7 -/

/-- Claim C7, counterexample: the `elements` table's primary key is `id`
alone, so a siacoin element and a file contract element sharing
`ElementID` 1 cannot both be stored in one batch: the second insert
records a constraint violation, and commit fails and rolls back instead of
succeeding with both retrievable. -/
theorem shared_id_commit_fails :
    let s1 := (SQLiteStore.AddFileContractElement
      (SQLiteStore.AddSiacoinElement ⟨Tables.empty, none, none⟩
        ⟨⟨⟨1⟩, 0, []⟩, ⟨2⟩, 100, 0⟩)
      ⟨⟨⟨1⟩, 1, []⟩, ⟨0, ⟨0, ⟨0⟩⟩, ⟨0, ⟨0⟩⟩⟩⟩)
    (s1.Commit).2 = .error DBErr.constraintViolation ∧
    (s1.Commit).1.db = Tables.empty := by
  constructor <;> rfl

/-- Claim C7, amended: because `elements` is keyed by `id` alone, storing
two elements of different types sharing an `ElementID` in one batch records
a constraint violation; the batch's commit returns it and leaves the
committed database unchanged — the schema thus (accidentally) enforces
that two kinds of element never share an `ElementID`. -/
theorem elements_id_primary_key (s : SQLiteStore) (sce : SiacoinElement)
    (fce : FileContractElement) (hid : fce.se.id = sce.se.id)
    (htx : s.tx = none) :
    ((s.AddSiacoinElement sce).AddFileContractElement fce).txErr
      = some DBErr.constraintViolation ∧
    (((s.AddSiacoinElement sce).AddFileContractElement fce).Commit).2
      = .error DBErr.constraintViolation ∧
    (((s.AddSiacoinElement sce).AddFileContractElement fce).Commit).1.db
      = s.db := by
  obtain ⟨db, tx, txErr⟩ := s
  cases htx
  have hkey : ∀ (l : List (ElementID × String × Blob)) (b : Blob) (ty : String),
      (l ++ [(sce.se.id, ty, b)]).any (fun r => r.1 == fce.se.id) = true := by
    intro l b ty
    rw [List.any_append]
    simp [hid]
  have herr : ((SQLiteStore.AddSiacoinElement ⟨db, none, txErr⟩ sce).AddFileContractElement fce).txErr
      = some DBErr.constraintViolation := by
    by_cases hdup : db.elements.any (fun r => r.1 == sce.se.id)
    · have h1 : SQLiteStore.AddSiacoinElement ⟨db, none, txErr⟩ sce
          = ⟨db, some db, some DBErr.constraintViolation⟩ := by
        simp [SQLiteStore.AddSiacoinElement, SQLiteStore.execStatement,
          SQLiteStore.beginTx, insertElementRow, hdup]
      rw [h1]
      have h2 := execStatement_stuck ⟨db, some db, some DBErr.constraintViolation⟩
        db DBErr.constraintViolation
        (insertElementRow fce.se.id "contract" (Blob.fce fce)) rfl rfl
      show (SQLiteStore.execStatement _ _).txErr = _
      rw [h2]
    · have h1 : SQLiteStore.AddSiacoinElement ⟨db, none, txErr⟩ sce
          = ⟨db, some { db with elements := db.elements ++ [(sce.se.id, "siacoin", Blob.sce sce)] }, none⟩ := by
        simp [SQLiteStore.AddSiacoinElement, SQLiteStore.execStatement,
          SQLiteStore.beginTx, insertElementRow, hdup]
      rw [h1]
      show (SQLiteStore.execStatement _ _).txErr = _
      simp [SQLiteStore.execStatement, SQLiteStore.beginTx, insertElementRow, hkey]
  have hdb : ((SQLiteStore.AddSiacoinElement ⟨db, none, txErr⟩ sce).AddFileContractElement fce).db = db := by
    show (SQLiteStore.execStatement _ _).db = db
    rw [execStatement_db]
    show (SQLiteStore.execStatement _ _).db = db
    rw [execStatement_db]
  have hc : (((SQLiteStore.AddSiacoinElement ⟨db, none, txErr⟩ sce).AddFileContractElement fce).Commit)
      = (⟨((SQLiteStore.AddSiacoinElement ⟨db, none, txErr⟩ sce).AddFileContractElement fce).db,
          none, some DBErr.constraintViolation⟩, .error DBErr.constraintViolation) := by
    unfold SQLiteStore.Commit
    rw [herr]
  exact ⟨herr, by rw [hc], by rw [hc]; exact hdb⟩

/-- Claim C7, witness for the amended statement: concrete elements with the
shared id 1 on a fresh store. -/
theorem elements_id_primary_key_witness :
    ((⟨⟨⟨1⟩, 1, []⟩, ⟨0, ⟨0, ⟨0⟩⟩, ⟨0, ⟨0⟩⟩⟩⟩ : FileContractElement).se.id
        = (⟨⟨⟨1⟩, 0, []⟩, ⟨2⟩, 100, 0⟩ : SiacoinElement).se.id ∧
      (⟨Tables.empty, none, none⟩ : SQLiteStore).tx = none) ∧
    ((SQLiteStore.AddSiacoinElement ⟨Tables.empty, none, none⟩
        ⟨⟨⟨1⟩, 0, []⟩, ⟨2⟩, 100, 0⟩).AddFileContractElement
        ⟨⟨⟨1⟩, 1, []⟩, ⟨0, ⟨0, ⟨0⟩⟩, ⟨0, ⟨0⟩⟩⟩⟩).txErr
      = some DBErr.constraintViolation :=
  ⟨⟨rfl, rfl⟩,
    (elements_id_primary_key ⟨Tables.empty, none, none⟩
      ⟨⟨⟨1⟩, 0, []⟩, ⟨2⟩, 100, 0⟩ ⟨⟨⟨1⟩, 1, []⟩, ⟨0, ⟨0, ⟨0⟩⟩, ⟨0, ⟨0⟩⟩⟩⟩
      rfl rfl).1⟩

/-! ### Claim C10 -/

/-- Claim C10: a failed point lookup inside an open transaction — here the
`NotFound` case of a siacoin-element read — is recorded as the deferred
error: the read returns `sql.ErrNoRows`, every write issued afterwards in
the same batch is silently dropped (the pending state is frozen), and the
commit rolls the whole batch back and returns the read error, regardless
of whether the writes themselves would have succeeded. -/
theorem read_error_poisons_batch (s0 : SQLiteStore) (id : ElementID)
    (ops : List WriteOp) (htx : s0.tx = none)
    (hmiss : lookupElementRow id "siacoin" s0.db = none) :
    (s0.SiacoinElement id).2 = .error DBErr.noRows ∧
    (s0.SiacoinElement id).1.txErr = some DBErr.noRows ∧
    runWrites (s0.SiacoinElement id).1 ops = (s0.SiacoinElement id).1 ∧
    ((runWrites (s0.SiacoinElement id).1 ops).Commit).2 = .error DBErr.noRows ∧
    ((runWrites (s0.SiacoinElement id).1 ops).Commit).1.db = s0.db ∧
    ((runWrites (s0.SiacoinElement id).1 ops).Commit).1.tx = none := by
  obtain ⟨db, tx, txErr⟩ := s0
  cases htx
  have hq : SQLiteStore.SiacoinElement ⟨db, none, txErr⟩ id
      = (⟨db, some db, some DBErr.noRows⟩, .error DBErr.noRows) := by
    simp only at hmiss
    simp [SQLiteStore.SiacoinElement, SQLiteStore.queryRow, SQLiteStore.beginTx,
      hmiss]
  rw [hq]
  have hstuck := runWrites_stuck ops ⟨db, some db, some DBErr.noRows⟩ db
    DBErr.noRows rfl rfl
  rw [hstuck]
  exact ⟨rfl, rfl, rfl, rfl, rfl, rfl⟩

/-- Claim C10, witness: an empty store, a lookup of the missing element id
9, then a write batch that would succeed on its own; commit still fails
with the read error. -/
theorem read_error_poisons_batch_witness :
    ((⟨Tables.empty, none, none⟩ : SQLiteStore).tx = none ∧
      lookupElementRow ⟨9⟩ "siacoin" Tables.empty = none) ∧
    ((runWrites ((SQLiteStore.SiacoinElement ⟨Tables.empty, none, none⟩ ⟨9⟩).1)
        [WriteOp.addSiacoinElement ⟨⟨⟨1⟩, 0, []⟩, ⟨2⟩, 100, 0⟩]).Commit).2
      = .error DBErr.noRows :=
  ⟨⟨rfl, rfl⟩,
    (read_error_poisons_batch ⟨Tables.empty, none, none⟩ ⟨9⟩
      [WriteOp.addSiacoinElement ⟨⟨⟨1⟩, 0, []⟩, ⟨2⟩, 100, 0⟩]
      rfl rfl).2.2.2.1⟩

/-! ## Explorer engine (`explorer.go`)

`ProcessChainApplyUpdate` / `ProcessChainRevertUpdate` run under the
engine's mutex; they are modelled as pure transitions on the engine state.
Every call to the `Store` and `HashStore` interfaces is recorded as an
`Event`, in program order; the new `ChainStats` value is a pure function of
the update and the cached `tipStats` (no store reads are involved in it),
so the event list of one update is data computed up front and then run
against the stores, which is step-for-step the Go execution order.
`hs.Commit` is an `fsync` of all 64 level files; its outcome depends on the
environment and is passed in as an oracle (`none` = success, `some code` =
the first failing sync's error).  `ModifyLeaf` errors are ignored by the Go
engine (its return value is discarded), and the modelled file writes always
succeed. -/

/-- `chain.ApplyUpdate`: the fields `explorer.go` reads. -/
structure ApplyUpdate where
  block : Block
  state : ConsensusState
  newSiacoinElements : List SiacoinElement
  newSiafundElements : List SiafundElement
  newFileContracts : List FileContractElement
  revisedFileContracts : List FileContractElement
  spentSiacoins : List SiacoinElement
  spentSiafunds : List SiafundElement
  resolvedFileContracts : List FileContractElement
deriving DecidableEq, Repr

/-- `chain.RevertUpdate`: the fields `explorer.go` reads. -/
structure RevertUpdate where
  block : Block
  state : ConsensusState
  newSiacoinElements : List SiacoinElement
  newSiafundElements : List SiafundElement
  newFileContracts : List FileContractElement
  revisedFileContracts : List FileContractElement
  spentSiacoins : List SiacoinElement
  spentSiafunds : List SiafundElement
  resolvedFileContracts : List FileContractElement
deriving DecidableEq, Repr

/-- One interface call issued by the engine, with its arguments. -/
inductive Event
  | addState (idx : ChainIndex) (cs : ConsensusState)
  | addTransaction (txn : Transaction) (addrs : List Address) (blk : ChainIndex)
  | removeElement (id : ElementID)
  | removeUnspentSiacoin (a : Address) (id : ElementID)
  | removeUnspentSiafund (a : Address) (id : ElementID)
  | addSiacoinElement (e : SiacoinElement)
  | addSiafundElement (e : SiafundElement)
  | addFileContractElement (e : FileContractElement)
  | addUnspentSiacoin (a : Address) (id : ElementID)
  | addUnspentSiafund (a : Address) (id : ElementID)
  | addChainStats (idx : ChainIndex) (stats : ChainStats)
  | modifyLeaf (se : StateElement)
  | hsCommit
  | dbCommit
deriving DecidableEq, Repr

/-- Errors surfaced by the engine: a failed hash-store `fsync` (with the
OS error abstracted as a code) or a KV-store error. -/
inductive EngineErr
  | hsSyncFailed (code : Nat)
  | dbErr (e : DBErr)
deriving DecidableEq, Repr

/-- The `Explorer` struct (explorer.go lines 50-56): the KV store, the
hash store, and the cached `tipStats` and consensus state. -/
structure Explorer where
  db : SQLiteStore
  hs : HashStore
  tipStats : ChainStats
  cs : ConsensusState

/-- Execute one interface call against the stores (the commit events are
run at top level by the engine; as events they mark ordering only). -/
def Explorer.runEvent (e : Explorer) : Event → Explorer
  | .addState idx st => { e with db := e.db.AddState idx st }
  | .addTransaction txn addrs blk => { e with db := e.db.AddTransaction txn addrs blk }
  | .removeElement id => { e with db := e.db.RemoveElement id }
  | .removeUnspentSiacoin a id => { e with db := e.db.RemoveUnspentSiacoinElement a id }
  | .removeUnspentSiafund a id => { e with db := e.db.RemoveUnspentSiafundElement a id }
  | .addSiacoinElement el => { e with db := e.db.AddSiacoinElement el }
  | .addSiafundElement el => { e with db := e.db.AddSiafundElement el }
  | .addFileContractElement el => { e with db := e.db.AddFileContractElement el }
  | .addUnspentSiacoin a id => { e with db := e.db.AddUnspentSiacoinElement a id }
  | .addUnspentSiafund a id => { e with db := e.db.AddUnspentSiafundElement a id }
  | .addChainStats idx st => { e with db := e.db.AddChainStats idx st }
  | .modifyLeaf se => { e with hs := ModifyLeaf e.hs se }
  | .hsCommit => e
  | .dbCommit => e

/-- Run a list of interface calls in order. -/
def Explorer.runEvents (e : Explorer) (evs : List Event) : Explorer :=
  evs.foldl Explorer.runEvent e

/-- The unique set of addresses involved in a transaction (explorer.go
lines 76-93): parents' addresses of coin/fund inputs and addresses of
coin/fund outputs.  The Go code collects them in a map and iterates it in
unspecified order; the model keeps first-occurrence order, which no claim
depends on. -/
def txnAddresses (txn : Transaction) : List Address :=
  (txn.siacoinInputs.map (fun i => i.parent.address)
    ++ txn.siacoinOutputs.map (fun o => o.address)
    ++ txn.siafundInputs.map (fun i => i.parent.address)
    ++ txn.siafundOutputs.map (fun o => o.address)).dedup

/-- The `ChainStats` value computed by `ProcessChainApplyUpdate` (explorer.go
lines 65-73 seed the struct from the cached tip; the element loops then
bump the counters).  The computation reads no store state, so it is pulled
out as a pure function; subtraction on `Nat` truncates where Go unsigned
arithmetic would wrap, which no claim depends on. -/
def applyStats (tip : ChainStats) (cau : ApplyUpdate) : ChainStats :=
  let stats : ChainStats :=
    { block := cau.block
      spentSiacoinsCount := 0
      spentSiafundsCount := 0
      activeContractCost := tip.activeContractCost
      activeContractCount := tip.activeContractCount
      activeContractSize := tip.activeContractSize
      totalContractCost := tip.totalContractCost
      totalContractSize := tip.totalContractSize
      totalRevisionVolume := tip.totalRevisionVolume }
  let stats := cau.spentSiacoins.foldl
    (fun st _ => { st with spentSiacoinsCount := st.spentSiacoinsCount + 1 }) stats
  let stats := cau.spentSiafunds.foldl
    (fun st _ => { st with spentSiafundsCount := st.spentSiafundsCount + 1 }) stats
  let stats := cau.resolvedFileContracts.foldl
    (fun st el =>
      { st with
        activeContractCount := st.activeContractCount - 1
        activeContractCost := st.activeContractCost
          - (el.fileContract.renterOutput.value + el.fileContract.hostOutput.value)
        activeContractSize := st.activeContractSize - el.fileContract.filesize }) stats
  let stats := cau.revisedFileContracts.foldl
    (fun st el =>
      { st with
        totalContractSize := st.totalContractSize + el.fileContract.filesize
        totalRevisionVolume := st.totalRevisionVolume + el.fileContract.filesize }) stats
  let stats := cau.newFileContracts.foldl
    (fun st el =>
      { st with
        activeContractCount := st.activeContractCount + 1
        activeContractCost := st.activeContractCost
          + (el.fileContract.renterOutput.value + el.fileContract.hostOutput.value)
        activeContractSize := st.activeContractSize + el.fileContract.filesize
        totalContractCost := st.totalContractCost
          + (el.fileContract.renterOutput.value + el.fileContract.hostOutput.value)
        totalContractSize := st.totalContractSize + el.fileContract.filesize }) stats
  stats

/-- The interface calls of `ProcessChainApplyUpdate` before the chain-stats
record, in program order (explorer.go lines 63-143): consensus state, the
per-transaction records, the removals (spent coins, spent funds, resolved
contracts), and the additions (new coins, new funds, revised contracts, new
contracts). -/
def applyBodyEvents (cau : ApplyUpdate) : List Event :=
  [Event.addState cau.block.index cau.state]
  ++ cau.block.transactions.map
      (fun t => Event.addTransaction t (txnAddresses t) cau.block.index)
  ++ cau.spentSiacoins.flatMap
      (fun el => [Event.removeElement el.se.id,
        Event.removeUnspentSiacoin el.address el.se.id, Event.modifyLeaf el.se])
  ++ cau.spentSiafunds.flatMap
      (fun el => [Event.removeElement el.se.id,
        Event.removeUnspentSiafund el.address el.se.id, Event.modifyLeaf el.se])
  ++ cau.resolvedFileContracts.flatMap
      (fun el => [Event.removeElement el.se.id, Event.modifyLeaf el.se])
  ++ cau.newSiacoinElements.flatMap
      (fun el => [Event.addSiacoinElement el,
        Event.addUnspentSiacoin el.address el.se.id, Event.modifyLeaf el.se])
  ++ cau.newSiafundElements.flatMap
      (fun el => [Event.addSiafundElement el,
        Event.addUnspentSiafund el.address el.se.id, Event.modifyLeaf el.se])
  ++ cau.revisedFileContracts.flatMap
      (fun el => [Event.addFileContractElement el, Event.modifyLeaf el.se])
  ++ cau.newFileContracts.flatMap
      (fun el => [Event.addFileContractElement el, Event.modifyLeaf el.se])

/-- All interface calls of `ProcessChainApplyUpdate` before the commit
step: the body writes followed by the chain-stats record under
`cau.State.Index` (explorer.go line 145). -/
def applyEvents (tip : ChainStats) (cau : ApplyUpdate) : List Event :=
  applyBodyEvents cau ++ [Event.addChainStats cau.state.index (applyStats tip cau)]

/-- `(*Explorer).ProcessChainApplyUpdate` (explorer.go lines 59-156):
run the writes, update the cached consensus state and tip stats, and, if
`mayCommit`, sync the hash store and then commit the KV store — a failed
hash-store sync is returned without calling `kv.Commit`.  Returns the new
engine state, the ordered interface-call trace, and the result. -/
def Explorer.ProcessChainApplyUpdate (e : Explorer) (cau : ApplyUpdate)
    (mayCommit : Bool) (hsSync : Option Nat) :
    Explorer × List Event × Except EngineErr Unit :=
  let evs := applyEvents e.tipStats cau
  let e1 := e.runEvents evs
  let e2 := { e1 with cs := cau.state, tipStats := applyStats e.tipStats cau }
  if mayCommit then
    match hsSync with
    | some code => (e2, evs ++ [Event.hsCommit], .error (.hsSyncFailed code))
    | none =>
      let c := e2.db.Commit
      ({ e2 with db := c.1 }, evs ++ [Event.hsCommit, Event.dbCommit],
        c.2.mapError EngineErr.dbErr)
  else (e2, evs, .ok ())

/-- Modelled from the spec: the read-side query method `Explorer.ChainStats`
(its file is not among the given sources; only this engine-internal caller
and the tests reference it).  Per spec §4.5 it is a stateless passthrough
reading `chainstats[idx]` through the KV store. -/
def Explorer.ChainStats (e : Explorer) (idx : ChainIndex) :
    Explorer × Except DBErr ChainStats :=
  let r := e.db.ChainStats idx
  ({ e with db := r.1 }, r.2)

/-- Revert loop 1 (explorer.go lines 163-167): re-materialize spent
coins. -/
def revSpentSC (cru : RevertUpdate) : List Event :=
  cru.spentSiacoins.flatMap
    (fun el => [Event.addSiacoinElement el,
      Event.addUnspentSiacoin el.address el.se.id, Event.modifyLeaf el.se])

/-- Revert loop 2 (explorer.go lines 168-172): re-materialize spent
funds. -/
def revSpentSF (cru : RevertUpdate) : List Event :=
  cru.spentSiafunds.flatMap
    (fun el => [Event.addSiafundElement el,
      Event.addUnspentSiafund el.address el.se.id, Event.modifyLeaf el.se])

/-- Revert loop 3 (explorer.go lines 173-176): re-materialize resolved
contracts. -/
def revResolved (cru : RevertUpdate) : List Event :=
  cru.resolvedFileContracts.flatMap
    (fun el => [Event.addFileContractElement el, Event.modifyLeaf el.se])

/-- Revert loop 4 (explorer.go lines 178-181): remove new coins. -/
def revNewSC (cru : RevertUpdate) : List Event :=
  cru.newSiacoinElements.flatMap
    (fun el => [Event.removeElement el.se.id,
      Event.removeUnspentSiacoin el.address el.se.id])

/-- Revert loop 5 (explorer.go lines 182-185): remove new funds. -/
def revNewSF (cru : RevertUpdate) : List Event :=
  cru.newSiafundElements.flatMap
    (fun el => [Event.removeElement el.se.id,
      Event.removeUnspentSiafund el.address el.se.id])

/-- Revert loop 6 (explorer.go lines 186-188): remove revised contracts. -/
def revRevised (cru : RevertUpdate) : List Event :=
  cru.revisedFileContracts.map (fun el => Event.removeElement el.se.id)

/-- Revert loop 7 (explorer.go lines 189-194): re-insert each
transaction's revision parents. -/
def revRevisionParents (cru : RevertUpdate) : List Event :=
  cru.block.transactions.flatMap
    (fun t => t.fileContractRevisions.flatMap
      (fun rev => [Event.addFileContractElement rev.parent,
        Event.modifyLeaf rev.parent.se]))

/-- Revert loop 8 (explorer.go lines 195-197): remove new contracts —
note this runs AFTER the revision-parent re-insertion loop. -/
def revNewFC (cru : RevertUpdate) : List Event :=
  cru.newFileContracts.map (fun el => Event.removeElement el.se.id)

/-- The interface calls of `ProcessChainRevertUpdate` before the
chain-stats read and commit, in program order (explorer.go lines 163-197):
re-materialize spent coins, spent funds and resolved contracts; remove new
coins, new funds and revised contracts; re-insert each transaction's
revision parents; and only then remove the new file contracts. -/
def revertEvents (cru : RevertUpdate) : List Event :=
  revSpentSC cru ++ revSpentSF cru ++ revResolved cru ++ revNewSC cru
    ++ revNewSF cru ++ revRevised cru ++ revRevisionParents cru ++ revNewFC cru

/-- `(*Explorer).ProcessChainRevertUpdate` (explorer.go lines 159-207):
run the writes, read back `chainstats[cru.State.Index]` to reload the
cached tip stats (returning any read error), and commit the KV store
unconditionally (no hash-store sync). -/
def Explorer.ProcessChainRevertUpdate (e : Explorer) (cru : RevertUpdate) :
    Explorer × List Event × Except EngineErr Unit :=
  let evs := revertEvents cru
  let e1 := e.runEvents evs
  let r := e1.ChainStats cru.state.index
  match r.2 with
  | .error err => (r.1, evs, .error (.dbErr err))
  | .ok oldStats =>
    let e3 := { r.1 with cs := cru.state, tipStats := oldStats }
    let c := e3.db.Commit
    ({ e3 with db := c.1 }, evs ++ [Event.dbCommit], c.2.mapError EngineErr.dbErr)

/-! ### Claim C1: commit ordering in Apply -/

/-- No hash-store or KV commit call occurs among the write events of one
apply update. -/
theorem applyEvents_no_commit (tip : ChainStats) (cau : ApplyUpdate) :
    Event.hsCommit ∉ applyEvents tip cau ∧ Event.dbCommit ∉ applyEvents tip cau := by
  constructor <;>
  · intro hmem
    simp [applyEvents, applyBodyEvents, List.mem_append, List.mem_map,
      List.mem_flatMap, List.mem_singleton, List.mem_cons] at hmem

/-- Claim C1: with `may_commit = true`, the trace of `Apply` is the write
events (ending with the chain-stats update) followed by `hs.Commit` and —
only if that succeeded — `kv.Commit`; neither commit occurs earlier.  If
`hs.Commit` fails, `Apply` returns exactly that error and `kv.Commit` is
never invoked; otherwise `Apply` returns the result of `kv.Commit`. -/
theorem apply_commit_order (e : Explorer) (cau : ApplyUpdate) (hsSync : Option Nat) :
    (e.ProcessChainApplyUpdate cau true hsSync).2.1
      = applyEvents e.tipStats cau
        ++ (match hsSync with
            | some _ => [Event.hsCommit]
            | none => [Event.hsCommit, Event.dbCommit]) ∧
    Event.hsCommit ∉ applyEvents e.tipStats cau ∧
    Event.dbCommit ∉ applyEvents e.tipStats cau ∧
    (applyEvents e.tipStats cau).getLast?
      = some (Event.addChainStats cau.state.index (applyStats e.tipStats cau)) ∧
    (e.ProcessChainApplyUpdate cau true hsSync).2.2
      = (match hsSync with
         | some code => .error (EngineErr.hsSyncFailed code)
         | none =>
           (((e.runEvents (applyEvents e.tipStats cau)).db.Commit).2).mapError
             EngineErr.dbErr) := by
  obtain ⟨h1, h2⟩ := applyEvents_no_commit e.tipStats cau
  refine ⟨?_, h1, h2, ?_, ?_⟩
  · cases hsSync <;> rfl
  · rw [applyEvents]
    exact List.getLast?_concat _
  · cases hsSync <;> rfl

/-! ### Pending-view lemmas for Claim C2

`pview s` is the table state a statement or query sees after `beginTx`:
the open transaction's pending state, or the committed database when no
transaction is open. -/

/-- The table state visible inside the (possibly about-to-be-opened)
transaction. -/
def pview (s : SQLiteStore) : Tables := s.tx.getD s.db

/-- `beginTx` does not change the visible table state. -/
theorem pview_beginTx (s : SQLiteStore) : pview s.beginTx = pview s := by
  obtain ⟨db, tx, txErr⟩ := s
  cases tx <;> rfl

/-- `beginTx` keeps a clean deferred-error slot clean. -/
theorem beginTx_txErr_none (s : SQLiteStore) (he : s.txErr = none) :
    s.beginTx.txErr = none := by
  obtain ⟨db, tx, txErr⟩ := s
  cases he
  cases tx <;> rfl

/-- `beginTx` always leaves a transaction open. -/
theorem beginTx_tx_isSome (s : SQLiteStore) : s.beginTx.tx.isSome := by
  obtain ⟨db, tx, txErr⟩ := s
  cases tx <;> simp [SQLiteStore.beginTx]

/-- A successful commit of a clean open transaction. -/
theorem commit_ok (s : SQLiteStore) (t : Tables)
    (he : s.txErr = none) (ht : s.tx = some t) :
    s.Commit = (⟨t, none, none⟩, .ok ()) := by
  obtain ⟨db, tx, txErr⟩ := s
  cases he
  cases ht
  rfl

/-- A point query on a clean store finds the row in the visible table
state and decodes it. -/
theorem queryRow_ok (A : Type) (s : SQLiteStore) (q : Tables → Option Blob)
    (dec : Blob → Option A) (b : Blob) (a : A)
    (he : s.txErr = none) (hq : q (pview s) = some b) (hdec : dec b = some a) :
    s.queryRow A q dec = (s.beginTx, .ok a) := by
  obtain ⟨db, tx, txErr⟩ := s
  cases he
  cases tx with
  | none =>
    simp only [pview, Option.getD] at hq
    simp [SQLiteStore.queryRow, SQLiteStore.beginTx, hq, hdec]
  | some t =>
    simp only [pview, Option.getD] at hq
    simp [SQLiteStore.queryRow, SQLiteStore.beginTx, hq, hdec]

/-- If a statement preserves the `chainstats` lookup at key `k`, then so
does `execStatement`, on the visible table state — whether the statement
succeeds, fails, or is dropped. -/
theorem execStatement_pview_chainstats (s : SQLiteStore)
    (stmt : Tables → Except DBErr Tables) (k : ChainIndex)
    (hstmt : ∀ t t2, stmt t = .ok t2 →
      lookupChainStatsRow k t2 = lookupChainStatsRow k t) :
    lookupChainStatsRow k (pview (s.execStatement stmt))
      = lookupChainStatsRow k (pview s) := by
  obtain ⟨db, tx, txErr⟩ := s
  cases tx with
  | none =>
    cases h : stmt db with
    | ok t2 =>
      simp only [SQLiteStore.execStatement, SQLiteStore.beginTx, h, pview,
        Option.getD]
      exact hstmt db t2 h
    | error e =>
      simp [SQLiteStore.execStatement, SQLiteStore.beginTx, h, pview]
  | some t =>
    cases txErr with
    | some e => rfl
    | none =>
      cases h : stmt t with
      | ok t2 =>
        simp only [SQLiteStore.execStatement, SQLiteStore.beginTx, h, pview,
          Option.getD]
        exact hstmt t t2 h
      | error e =>
        simp [SQLiteStore.execStatement, SQLiteStore.beginTx, h, pview]

/-- The chain-stats lookup only depends on the `chainstats` table. -/
theorem lookupChainStatsRow_congr (k : ChainIndex) (t t2 : Tables)
    (h : t2.chainstats = t.chainstats) :
    lookupChainStatsRow k t2 = lookupChainStatsRow k t := by
  unfold lookupChainStatsRow
  rw [h]

/-- Inserts into `elements` leave `chainstats` untouched. -/
theorem insertElementRow_chainstats (id : ElementID) (ty : String) (b : Blob) :
    ∀ t t2, insertElementRow id ty b t = .ok t2 → t2.chainstats = t.chainstats := by
  intro t t2 h
  unfold insertElementRow at h
  split at h
  · exact Except.noConfusion h
  · injection h with h2
    rw [← h2]

/-- Deletes from `elements` leave `chainstats` untouched. -/
theorem deleteElementRow_chainstats (id : ElementID) :
    ∀ t t2, deleteElementRow id t = .ok t2 → t2.chainstats = t.chainstats := by
  intro t t2 h
  injection h with h2
  rw [← h2]

/-- Inserts into `states` leave `chainstats` untouched. -/
theorem insertStateRow_chainstats (idx : ChainIndex) (b : Blob) :
    ∀ t t2, insertStateRow idx b t = .ok t2 → t2.chainstats = t.chainstats := by
  intro t t2 h
  unfold insertStateRow at h
  split at h
  · exact Except.noConfusion h
  · injection h with h2
    rw [← h2]

/-- Inserts into `unspentElements` leave `chainstats` untouched. -/
theorem insertUnspentRow_chainstats (a : Address) (ty : String) (id : ElementID) :
    ∀ t t2, insertUnspentRow a ty id t = .ok t2 → t2.chainstats = t.chainstats := by
  intro t t2 h
  unfold insertUnspentRow at h
  split at h
  · exact Except.noConfusion h
  · injection h with h2
    rw [← h2]

/-- Deletes from `unspentElements` leave `chainstats` untouched. -/
theorem deleteUnspentRow_chainstats (a : Address) (id : ElementID) (ty : String) :
    ∀ t t2, deleteUnspentRow a id ty t = .ok t2 → t2.chainstats = t.chainstats := by
  intro t t2 h
  injection h with h2
  rw [← h2]

/-- Inserts into `transactions` leave `chainstats` untouched. -/
theorem insertTransactionRow_chainstats (id : TransactionID) (b : Blob) :
    ∀ t t2, insertTransactionRow id b t = .ok t2 → t2.chainstats = t.chainstats := by
  intro t t2 h
  unfold insertTransactionRow at h
  split at h
  · exact Except.noConfusion h
  · injection h with h2
    rw [← h2]

/-- Inserts into `addressTransactions` leave `chainstats` untouched. -/
theorem insertAddrTxnRow_chainstats (a : Address) (id : TransactionID) :
    ∀ t t2, insertAddrTxnRow a id t = .ok t2 → t2.chainstats = t.chainstats := by
  intro t t2 h
  injection h with h2
  rw [← h2]

/-- Inserting chain stats under a different key preserves the lookup at
`k`. -/
theorem insertChainStatsRow_lookup_ne (idx : ChainIndex) (b : Blob)
    (k : ChainIndex) (hne : idx ≠ k) :
    ∀ t t2, insertChainStatsRow idx b t = .ok t2 →
      lookupChainStatsRow k t2 = lookupChainStatsRow k t := by
  intro t t2 h
  unfold insertChainStatsRow at h
  split at h
  · exact Except.noConfusion h
  · injection h with h2
    rw [← h2]
    show ((t.chainstats ++ [(idx, b)]).find? (fun r => r.1 == k)).map (fun r => r.2)
      = (t.chainstats.find? (fun r => r.1 == k)).map (fun r => r.2)
    rw [List.find?_append]
    have hbeq : (idx == k) = false := beq_eq_false_iff_ne.mpr hne
    have hnone : [(idx, b)].find? (fun r => r.1 == k) = none := by
      simp [List.find?, hbeq]
    rw [hnone, Option.or_none]

/-- A successful chain-stats insert makes the lookup at its key return the
inserted blob. -/
theorem insertChainStatsRow_lookup_self (idx : ChainIndex) (b : Blob) :
    ∀ t t2, insertChainStatsRow idx b t = .ok t2 →
      lookupChainStatsRow idx t2 = some b := by
  intro t t2 h
  unfold insertChainStatsRow at h
  split at h
  · exact Except.noConfusion h
  · rename_i hguard
    injection h with h2
    rw [← h2]
    show ((t.chainstats ++ [(idx, b)]).find? (fun r => r.1 == idx)).map (fun r => r.2)
      = some b
    rw [List.find?_append]
    have hnone : t.chainstats.find? (fun r => r.1 == idx) = none := by
      rw [List.find?_eq_none]
      intro x hx hbeq
      exact hguard (List.any_eq_true.mpr ⟨x, hx, hbeq⟩)
    rw [hnone]
    simp [List.find?]

/-- The `addressTransactions` loop of `AddTransaction` preserves the
chain-stats lookup on the visible state. -/
theorem addrFold_pview_chainstats (tid : TransactionID) (k : ChainIndex) :
    ∀ (addrs : List Address) (s : SQLiteStore),
      lookupChainStatsRow k (pview
        (addrs.foldl (fun acc addr => acc.execStatement (insertAddrTxnRow addr tid)) s))
      = lookupChainStatsRow k (pview s) := by
  intro addrs
  induction addrs with
  | nil => intro s; rfl
  | cons a rest ih =>
    intro s
    rw [List.foldl_cons, ih,
      execStatement_pview_chainstats _ _ k
        (fun t t2 h => lookupChainStatsRow_congr k t t2
          (insertAddrTxnRow_chainstats a tid t t2 h))]

/-- Any engine event other than a chain-stats write at key `k` preserves
the chain-stats lookup at `k` on the visible table state. -/
theorem runEvent_pview_chainstats (e : Explorer) (ev : Event) (k : ChainIndex)
    (hev : ∀ st, ev ≠ Event.addChainStats k st) :
    lookupChainStatsRow k (pview (e.runEvent ev).db)
      = lookupChainStatsRow k (pview e.db) := by
  cases ev with
  | addState idx st =>
    exact execStatement_pview_chainstats _ _ k
      (fun t t2 h => lookupChainStatsRow_congr k t t2
        (insertStateRow_chainstats _ _ t t2 h))
  | addTransaction txn addrs blk =>
    show lookupChainStatsRow k (pview (e.db.AddTransaction txn addrs blk)) = _
    unfold SQLiteStore.AddTransaction
    rw [addrFold_pview_chainstats,
      execStatement_pview_chainstats _ _ k
        (fun t t2 h => lookupChainStatsRow_congr k t t2
          (insertTransactionRow_chainstats _ _ t t2 h))]
  | removeElement id =>
    exact execStatement_pview_chainstats _ _ k
      (fun t t2 h => lookupChainStatsRow_congr k t t2
        (deleteElementRow_chainstats _ t t2 h))
  | removeUnspentSiacoin a id =>
    exact execStatement_pview_chainstats _ _ k
      (fun t t2 h => lookupChainStatsRow_congr k t t2
        (deleteUnspentRow_chainstats _ _ _ t t2 h))
  | removeUnspentSiafund a id =>
    exact execStatement_pview_chainstats _ _ k
      (fun t t2 h => lookupChainStatsRow_congr k t t2
        (deleteUnspentRow_chainstats _ _ _ t t2 h))
  | addSiacoinElement el =>
    exact execStatement_pview_chainstats _ _ k
      (fun t t2 h => lookupChainStatsRow_congr k t t2
        (insertElementRow_chainstats _ _ _ t t2 h))
  | addSiafundElement el =>
    exact execStatement_pview_chainstats _ _ k
      (fun t t2 h => lookupChainStatsRow_congr k t t2
        (insertElementRow_chainstats _ _ _ t t2 h))
  | addFileContractElement el =>
    exact execStatement_pview_chainstats _ _ k
      (fun t t2 h => lookupChainStatsRow_congr k t t2
        (insertElementRow_chainstats _ _ _ t t2 h))
  | addUnspentSiacoin a id =>
    exact execStatement_pview_chainstats _ _ k
      (fun t t2 h => lookupChainStatsRow_congr k t t2
        (insertUnspentRow_chainstats _ _ _ t t2 h))
  | addUnspentSiafund a id =>
    exact execStatement_pview_chainstats _ _ k
      (fun t t2 h => lookupChainStatsRow_congr k t t2
        (insertUnspentRow_chainstats _ _ _ t t2 h))
  | addChainStats idx st =>
    have hne : idx ≠ k := by
      intro hik
      exact hev st (by rw [hik])
    exact execStatement_pview_chainstats _ _ k
      (insertChainStatsRow_lookup_ne idx _ k hne)
  | modifyLeaf se => rfl
  | hsCommit => rfl
  | dbCommit => rfl

/-- Event lists that never write chain stats at key `k` preserve the
chain-stats lookup at `k` on the visible table state. -/
theorem runEvents_pview_chainstats (k : ChainIndex) :
    ∀ (evs : List Event) (e : Explorer),
      (∀ ev ∈ evs, ∀ st, ev ≠ Event.addChainStats k st) →
      lookupChainStatsRow k (pview (e.runEvents evs).db)
        = lookupChainStatsRow k (pview e.db) := by
  intro evs
  induction evs with
  | nil => intro e _; rfl
  | cons ev rest ih =>
    intro e hall
    show lookupChainStatsRow k (pview ((e.runEvent ev).runEvents rest).db) = _
    rw [ih _ (fun x hx => hall x (List.mem_cons_of_mem ev hx)),
      runEvent_pview_chainstats e ev k (hall ev (List.mem_cons_self ev rest))]

/-- Once a deferred error is recorded in an open transaction, an engine
event leaves the store untouched. -/
theorem runEvent_db_stuck (e : Explorer) (ev : Event) (t : Tables) (err : DBErr)
    (htx : e.db.tx = some t) (herr : e.db.txErr = some err) :
    (e.runEvent ev).db = e.db := by
  cases ev with
  | addTransaction txn addrs blk =>
    show (addrs.foldl _ (e.db.execStatement (insertTransactionRow txn.txid (Blob.txn txn)))) = e.db
    rw [execStatement_stuck e.db t err _ htx herr]
    exact addrFold_stuck txn.txid addrs e.db t err htx herr
  | modifyLeaf se => rfl
  | hsCommit => rfl
  | dbCommit => rfl
  | addState idx st =>
    show e.db.execStatement (insertStateRow idx (Blob.cstate st)) = e.db
    exact execStatement_stuck e.db t err _ htx herr
  | removeElement id =>
    show e.db.execStatement (deleteElementRow id) = e.db
    exact execStatement_stuck e.db t err _ htx herr
  | removeUnspentSiacoin a id =>
    show e.db.execStatement (deleteUnspentRow a id "siacoin") = e.db
    exact execStatement_stuck e.db t err _ htx herr
  | removeUnspentSiafund a id =>
    show e.db.execStatement (deleteUnspentRow a id "siafund") = e.db
    exact execStatement_stuck e.db t err _ htx herr
  | addSiacoinElement el =>
    show e.db.execStatement (insertElementRow el.se.id "siacoin" (Blob.sce el)) = e.db
    exact execStatement_stuck e.db t err _ htx herr
  | addSiafundElement el =>
    show e.db.execStatement (insertElementRow el.se.id "siafund" (Blob.sfe el)) = e.db
    exact execStatement_stuck e.db t err _ htx herr
  | addFileContractElement el =>
    show e.db.execStatement (insertElementRow el.se.id "contract" (Blob.fce el)) = e.db
    exact execStatement_stuck e.db t err _ htx herr
  | addUnspentSiacoin a id =>
    show e.db.execStatement (insertUnspentRow a "siacoin" id) = e.db
    exact execStatement_stuck e.db t err _ htx herr
  | addUnspentSiafund a id =>
    show e.db.execStatement (insertUnspentRow a "siafund" id) = e.db
    exact execStatement_stuck e.db t err _ htx herr
  | addChainStats idx st =>
    show e.db.execStatement (insertChainStatsRow idx (Blob.stats st)) = e.db
    exact execStatement_stuck e.db t err _ htx herr

/-- Once a deferred error is recorded in an open transaction, a whole
event list leaves the store untouched. -/
theorem runEvents_db_stuck :
    ∀ (evs : List Event) (e : Explorer) (t : Tables) (err : DBErr),
      e.db.tx = some t → e.db.txErr = some err →
      (e.runEvents evs).db = e.db := by
  intro evs
  induction evs with
  | nil => intro e t err _ _; rfl
  | cons ev rest ih =>
    intro e t err htx herr
    show ((e.runEvent ev).runEvents rest).db = e.db
    have hstep := runEvent_db_stuck e ev t err htx herr
    rw [ih (e.runEvent ev) t err (by rw [hstep]; exact htx) (by rw [hstep]; exact herr),
      hstep]

/-- Engine events keep an open transaction open. -/
theorem runEvent_db_tx_isSome (e : Explorer) (ev : Event)
    (h : e.db.tx.isSome) : (e.runEvent ev).db.tx.isSome := by
  cases ev with
  | addTransaction txn addrs blk =>
    exact addrFold_tx_isSome txn.txid addrs _ (execStatement_tx_isSome _ _)
  | modifyLeaf se => exact h
  | hsCommit => exact h
  | dbCommit => exact h
  | addState idx st => exact execStatement_tx_isSome _ _
  | removeElement id => exact execStatement_tx_isSome _ _
  | removeUnspentSiacoin a id => exact execStatement_tx_isSome _ _
  | removeUnspentSiafund a id => exact execStatement_tx_isSome _ _
  | addSiacoinElement el => exact execStatement_tx_isSome _ _
  | addSiafundElement el => exact execStatement_tx_isSome _ _
  | addFileContractElement el => exact execStatement_tx_isSome _ _
  | addUnspentSiacoin a id => exact execStatement_tx_isSome _ _
  | addUnspentSiafund a id => exact execStatement_tx_isSome _ _
  | addChainStats idx st => exact execStatement_tx_isSome _ _

/-- Event lists keep an open transaction open. -/
theorem runEvents_db_tx_isSome :
    ∀ (evs : List Event) (e : Explorer), e.db.tx.isSome →
      (e.runEvents evs).db.tx.isSome := by
  intro evs
  induction evs with
  | nil => intro e h; exact h
  | cons ev rest ih =>
    intro e h
    exact ih _ (runEvent_db_tx_isSome e ev h)

/-! ### Claim C2: apply/revert round-trip of the cached tip stats -/

/-- Running concatenated event lists runs them in sequence. -/
theorem runEvents_append (e : Explorer) (a b : List Event) :
    e.runEvents (a ++ b) = (e.runEvents a).runEvents b :=
  List.foldl_append Explorer.runEvent e a b

/-- `execStatement` on a clean open transaction runs the statement. -/
theorem execStatement_run (s : SQLiteStore) (t : Tables)
    (stmt : Tables → Except DBErr Tables)
    (htx : s.tx = some t) (he : s.txErr = none) :
    s.execStatement stmt
      = (match stmt t with
         | .ok t2 => { s with tx := some t2 }
         | .error e => { s with txErr := some e }) := by
  obtain ⟨db, tx, txErr⟩ := s
  cases htx
  cases he
  rfl

/-- The body of one apply update writes no chain-stats rows. -/
theorem applyBodyEvents_no_chainstats (cau : ApplyUpdate) :
    ∀ ev ∈ applyBodyEvents cau, ∀ idx st, ev ≠ Event.addChainStats idx st := by
  intro ev hev idx st heq
  subst heq
  simp [applyBodyEvents, List.mem_append, List.mem_map, List.mem_flatMap,
    List.mem_singleton, List.mem_cons] at hev

/-- One apply update touches `chainstats` only at `cau.State.Index`. -/
theorem applyEvents_no_chainstats_at (tip : ChainStats) (cau : ApplyUpdate)
    (k : ChainIndex) (hk : cau.state.index ≠ k) :
    ∀ ev ∈ applyEvents tip cau, ∀ st, ev ≠ Event.addChainStats k st := by
  intro ev hev st heq
  rw [applyEvents, List.mem_append] at hev
  rcases hev with hbody | hlast
  · exact applyBodyEvents_no_chainstats cau ev hbody k st heq
  · rw [List.mem_singleton] at hlast
    rw [heq] at hlast
    injection hlast with h1 h2
    exact hk h1.symm

/-- A revert update writes no chain-stats rows at all. -/
theorem revertEvents_no_chainstats (cru : RevertUpdate) :
    ∀ ev ∈ revertEvents cru, ∀ idx st, ev ≠ Event.addChainStats idx st := by
  intro ev hev idx st heq
  subst heq
  simp [revertEvents, revSpentSC, revSpentSF, revResolved, revNewSC, revNewSF,
    revRevised, revRevisionParents, revNewFC, List.mem_append, List.mem_map,
    List.mem_flatMap, List.mem_singleton, List.mem_cons] at hev

/-- The body event list of one apply update starts with the consensus-state
write, so running it always leaves a transaction open. -/
theorem applyBody_tx_isSome (e0 : Explorer) (cau : ApplyUpdate) :
    (e0.runEvents (applyBodyEvents cau)).db.tx.isSome := by
  have hcons : ∃ rest, applyBodyEvents cau
      = Event.addState cau.block.index cau.state :: rest := ⟨_, rfl⟩
  obtain ⟨rest, hrest⟩ := hcons
  rw [hrest]
  show ((e0.runEvent (Event.addState cau.block.index cau.state)).runEvents rest).db.tx.isSome
  refine runEvents_db_tx_isSome rest _ ?_
  show (e0.db.execStatement (insertStateRow cau.block.index (Blob.cstate cau.state))).tx.isSome
  exact execStatement_tx_isSome _ _

/-- Running the full apply event list always leaves a transaction open. -/
theorem applyEvents_tx_isSome (e0 : Explorer) (tip : ChainStats) (cau : ApplyUpdate) :
    (e0.runEvents (applyEvents tip cau)).db.tx.isSome := by
  rw [applyEvents, runEvents_append]
  exact runEvent_db_tx_isSome _
    (Event.addChainStats cau.state.index (applyStats tip cau))
    (applyBody_tx_isSome e0 cau)

/-- The revert handler reloads the cached tip stats by reading back the
stored chain stats for `cru.State.Index` and then commits successfully,
provided the transaction is clean and the row is present in the visible
table state. -/
theorem revert_reads_stats (e : Explorer) (cru : RevertUpdate) (tip0 : ChainStats)
    (hnoerr : (e.runEvents (revertEvents cru)).db.txErr = none)
    (hlook : lookupChainStatsRow cru.state.index
        (pview (e.runEvents (revertEvents cru)).db) = some (Blob.stats tip0)) :
    (e.ProcessChainRevertUpdate cru).2.2 = .ok () ∧
    (e.ProcessChainRevertUpdate cru).1.tipStats = tip0 := by
  have hq := queryRow_ok ChainStats (e.runEvents (revertEvents cru)).db
    (lookupChainStatsRow cru.state.index)
    (fun b => match b with | Blob.stats c => some c | _ => none)
    (Blob.stats tip0) tip0 hnoerr hlook rfl
  have hread : (e.runEvents (revertEvents cru)).ChainStats cru.state.index
      = ({ e.runEvents (revertEvents cru) with
            db := (e.runEvents (revertEvents cru)).db.beginTx }, .ok tip0) := by
    unfold Explorer.ChainStats SQLiteStore.ChainStats
    rw [hq]
  obtain ⟨t, ht⟩ := Option.isSome_iff_exists.mp
    (beginTx_tx_isSome (e.runEvents (revertEvents cru)).db)
  have hcommit := commit_ok ((e.runEvents (revertEvents cru)).db.beginTx) t
    (beginTx_txErr_none _ hnoerr) ht
  constructor
  · show (Explorer.ProcessChainRevertUpdate e cru).2.2 = .ok ()
    simp only [Explorer.ProcessChainRevertUpdate, hread, hcommit]
    rfl
  · show (Explorer.ProcessChainRevertUpdate e cru).1.tipStats = tip0
    simp only [Explorer.ProcessChainRevertUpdate, hread, hcommit]

/-- Claim C2: from a state with no open transaction whose `chainstats`
table stores, under the post-revert index `cru.State.Index`, exactly the
cached `tip_stats`, applying a block and then reverting it returns the
cached `tip_stats` to its prior value: `Apply` caches the new stats and
stores them under `cau.State.Index` (distinct from the parent index, so
the parent row survives), and `Revert` reloads the cache by reading back
the stored stats for `cru.State.Index` and commits successfully.  The two
error hypotheses state that the apply call returned success and that no
deferred KV error is pending when the revert reads. -/
theorem apply_revert_tipStats_roundtrip (e0 : Explorer) (cau : ApplyUpdate)
    (cru : RevertUpdate) (mayCommit : Bool) (hsSync : Option Nat)
    (htx0 : e0.db.tx = none)
    (hstats : lookupChainStatsRow cru.state.index e0.db.db
      = some (Blob.stats e0.tipStats))
    (hne : cau.state.index ≠ cru.state.index)
    (happly : (e0.ProcessChainApplyUpdate cau mayCommit hsSync).2.2 = .ok ())
    (hnoerr : ((e0.ProcessChainApplyUpdate cau mayCommit hsSync).1.runEvents
        (revertEvents cru)).db.txErr = none) :
    (e0.ProcessChainApplyUpdate cau mayCommit hsSync).1.tipStats
        = applyStats e0.tipStats cau ∧
    lookupChainStatsRow cau.state.index
        (pview (e0.ProcessChainApplyUpdate cau mayCommit hsSync).1.db)
      = some (Blob.stats (applyStats e0.tipStats cau)) ∧
    ((e0.ProcessChainApplyUpdate cau mayCommit hsSync).1.ProcessChainRevertUpdate cru).2.2
      = .ok () ∧
    ((e0.ProcessChainApplyUpdate cau mayCommit hsSync).1.ProcessChainRevertUpdate cru).1.tipStats
      = e0.tipStats := by
  have hlook0 : lookupChainStatsRow cru.state.index (pview e0.db)
      = some (Blob.stats e0.tipStats) := by
    simpa [pview, htx0] using hstats
  have hlook1 : lookupChainStatsRow cru.state.index
      (pview (e0.runEvents (applyEvents e0.tipStats cau)).db)
      = some (Blob.stats e0.tipStats) := by
    rw [runEvents_pview_chainstats cru.state.index _ e0
      (applyEvents_no_chainstats_at e0.tipStats cau cru.state.index hne)]
    exact hlook0
  obtain ⟨t1, ht1⟩ := Option.isSome_iff_exists.mp
    (applyEvents_tx_isSome e0 e0.tipStats cau)
  have hcache : (e0.ProcessChainApplyUpdate cau mayCommit hsSync).1.tipStats
      = applyStats e0.tipStats cau := by
    cases mayCommit <;> cases hsSync <;> rfl
  have hsplitCase :
      pview (e0.ProcessChainApplyUpdate cau mayCommit hsSync).1.db
        = pview (e0.runEvents (applyEvents e0.tipStats cau)).db ∧
      (e0.runEvents (applyEvents e0.tipStats cau)).db.txErr = none := by
    cases mayCommit with
    | false =>
      refine ⟨rfl, ?_⟩
      cases he : (e0.runEvents (applyEvents e0.tipStats cau)).db.txErr with
      | none => rfl
      | some err =>
        exfalso
        have heA : (e0.ProcessChainApplyUpdate cau false hsSync).1.db
            = (e0.runEvents (applyEvents e0.tipStats cau)).db := rfl
        have hstuck := runEvents_db_stuck (revertEvents cru)
          (e0.ProcessChainApplyUpdate cau false hsSync).1 t1 err
          (by rw [heA]; exact ht1) (by rw [heA]; exact he)
        rw [hstuck, heA, he] at hnoerr
        exact Option.noConfusion hnoerr
    | true =>
      cases hsSync with
      | some code =>
        exfalso
        simp [Explorer.ProcessChainApplyUpdate] at happly
      | none =>
        have hres : (e0.ProcessChainApplyUpdate cau true none).2.2
            = (((e0.runEvents (applyEvents e0.tipStats cau)).db.Commit).2).mapError
                EngineErr.dbErr := rfl
        cases he : (e0.runEvents (applyEvents e0.tipStats cau)).db.txErr with
        | some err =>
          exfalso
          have hcom : (e0.runEvents (applyEvents e0.tipStats cau)).db.Commit
              = (⟨(e0.runEvents (applyEvents e0.tipStats cau)).db.db, none, some err⟩,
                 .error err) := by
            unfold SQLiteStore.Commit
            rw [he]
          rw [hres, hcom] at happly
          exact Except.noConfusion happly
        | none =>
          have hc := commit_ok _ t1 he ht1
          refine ⟨?_, rfl⟩
          have heA : (e0.ProcessChainApplyUpdate cau true none).1.db
              = ((e0.runEvents (applyEvents e0.tipStats cau)).db.Commit).1 := rfl
          have hrhs : pview (e0.runEvents (applyEvents e0.tipStats cau)).db = t1 := by
            unfold pview
            rw [ht1]
            rfl
          rw [heA, hc, hrhs]
          rfl
  obtain ⟨hpvA, he1err⟩ := hsplitCase
  have hstored1 : lookupChainStatsRow cau.state.index
      (pview (e0.runEvents (applyEvents e0.tipStats cau)).db)
      = some (Blob.stats (applyStats e0.tipStats cau)) := by
    have hsplit : e0.runEvents (applyEvents e0.tipStats cau)
        = (e0.runEvents (applyBodyEvents cau)).runEvent
            (Event.addChainStats cau.state.index (applyStats e0.tipStats cau)) := by
      rw [applyEvents, runEvents_append]
      rfl
    obtain ⟨tP, htP⟩ := Option.isSome_iff_exists.mp (applyBody_tx_isSome e0 cau)
    cases hPerr : (e0.runEvents (applyBodyEvents cau)).db.txErr with
    | some err =>
      exfalso
      have hstuck := runEvent_db_stuck (e0.runEvents (applyBodyEvents cau))
        (Event.addChainStats cau.state.index (applyStats e0.tipStats cau))
        tP err htP hPerr
      rw [hsplit, hstuck] at he1err
      rw [he1err] at hPerr
      exact Option.noConfusion hPerr
    | none =>
      have hrun := execStatement_run (e0.runEvents (applyBodyEvents cau)).db tP
        (insertChainStatsRow cau.state.index
          (Blob.stats (applyStats e0.tipStats cau))) htP hPerr
      cases hins : insertChainStatsRow cau.state.index
          (Blob.stats (applyStats e0.tipStats cau)) tP with
      | error err =>
        exfalso
        rw [hins] at hrun
        have hbad : (e0.runEvents (applyEvents e0.tipStats cau)).db.txErr = some err := by
          rw [hsplit]
          show ((e0.runEvents (applyBodyEvents cau)).db.execStatement
            (insertChainStatsRow cau.state.index
              (Blob.stats (applyStats e0.tipStats cau)))).txErr = some err
          rw [hrun]
        rw [he1err] at hbad
        exact Option.noConfusion hbad
      | ok t2 =>
        rw [hins] at hrun
        have he1db : (e0.runEvents (applyEvents e0.tipStats cau)).db
            = { (e0.runEvents (applyBodyEvents cau)).db with tx := some t2 } := by
          rw [hsplit]
          show ((e0.runEvents (applyBodyEvents cau)).db.execStatement
            (insertChainStatsRow cau.state.index
              (Blob.stats (applyStats e0.tipStats cau)))) = _
          rw [hrun]
        rw [he1db]
        show lookupChainStatsRow cau.state.index t2
          = some (Blob.stats (applyStats e0.tipStats cau))
        exact insertChainStatsRow_lookup_self _ _ tP t2 hins
  have hstoredA : lookupChainStatsRow cau.state.index
      (pview (e0.ProcessChainApplyUpdate cau mayCommit hsSync).1.db)
      = some (Blob.stats (applyStats e0.tipStats cau)) := by
    rw [hpvA]
    exact hstored1
  have hlookRev : lookupChainStatsRow cru.state.index
      (pview ((e0.ProcessChainApplyUpdate cau mayCommit hsSync).1.runEvents
        (revertEvents cru)).db)
      = some (Blob.stats e0.tipStats) := by
    rw [runEvents_pview_chainstats cru.state.index _ _
      (fun ev hev st => revertEvents_no_chainstats cru ev hev cru.state.index st),
      hpvA]
    exact hlook1
  obtain ⟨hrev1, hrev2⟩ := revert_reads_stats _ cru e0.tipStats hnoerr hlookRev
  exact ⟨hcache, hstoredA, hrev1, hrev2⟩

/-- The parent chain index of the witness scenario for the apply/revert
round-trip. -/
def c2parent : ChainIndex := ⟨1, 1⟩

/-- The applied block's chain index in the witness scenario. -/
def c2bIdx : ChainIndex := ⟨2, 2⟩

/-- The cached tip stats at the parent height in the witness scenario. -/
def c2tip : ChainStats := ⟨⟨c2parent, []⟩, 0, 0, 0, 0, 0, 0, 0, 0⟩

/-- The witness engine state: committed chain stats for the parent height,
no open transaction, empty hash store. -/
def c2e0 : Explorer :=
  ⟨⟨⟨[], [], [(c2parent, Blob.stats c2tip)], [], [], []⟩, none, none⟩,
   ⟨fun _ _ => none, 0⟩, c2tip, ⟨c2parent, 0⟩⟩

/-- The witness apply update: an empty block at the new height. -/
def c2cau : ApplyUpdate := ⟨⟨c2bIdx, []⟩, ⟨c2bIdx, 0⟩, [], [], [], [], [], [], []⟩

/-- The witness revert update for the same block; its post-revert state is
the parent. -/
def c2cru : RevertUpdate := ⟨⟨c2bIdx, []⟩, ⟨c2parent, 0⟩, [], [], [], [], [], [], []⟩

/-- Claim C2, witness: applying the empty block at height 2 and reverting
it restores the cached tip stats of height 1. -/
theorem apply_revert_tipStats_roundtrip_witness :
    (c2e0.db.tx = none ∧
     lookupChainStatsRow c2cru.state.index c2e0.db.db
       = some (Blob.stats c2e0.tipStats) ∧
     c2cau.state.index ≠ c2cru.state.index ∧
     (c2e0.ProcessChainApplyUpdate c2cau true none).2.2 = .ok () ∧
     ((c2e0.ProcessChainApplyUpdate c2cau true none).1.runEvents
        (revertEvents c2cru)).db.txErr = none) ∧
    ((c2e0.ProcessChainApplyUpdate c2cau true none).1.ProcessChainRevertUpdate
        c2cru).1.tipStats = c2e0.tipStats :=
  ⟨⟨rfl, by decide, by decide, rfl, rfl⟩,
    (apply_revert_tipStats_roundtrip c2e0 c2cau c2cru true none rfl (by decide)
      (by decide) rfl rfl).2.2.2⟩

/-! ### Claim C8: ordering of removals and re-insertions in Revert -/

/-- Ids of every element newly added at the reverted height, as the claim
groups them: new coins, new funds, revised contracts, new contracts. -/
def newlyAddedIds (cru : RevertUpdate) : List ElementID :=
  cru.newSiacoinElements.map (fun el => el.se.id)
  ++ cru.newSiafundElements.map (fun el => el.se.id)
  ++ cru.revisedFileContracts.map (fun el => el.se.id)
  ++ cru.newFileContracts.map (fun el => el.se.id)

/-- Ids whose removals the code performs before the revision-parent
re-insertion: new coins, new funds, revised contracts. -/
def earlyRemovedIds (cru : RevertUpdate) : List ElementID :=
  cru.newSiacoinElements.map (fun el => el.se.id)
  ++ cru.newSiafundElements.map (fun el => el.se.id)
  ++ cru.revisedFileContracts.map (fun el => el.se.id)

/-- Ids of the new file contracts removed by loop 8. -/
def newFCIds (cru : RevertUpdate) : List ElementID :=
  cru.newFileContracts.map (fun el => el.se.id)

/-- Ids of the resolved contracts re-materialized by loop 3. -/
def resolvedIds (cru : RevertUpdate) : List ElementID :=
  cru.resolvedFileContracts.map (fun el => el.se.id)

/-- Ids of the revision parents re-inserted by loop 7. -/
def revParentIds (cru : RevertUpdate) : List ElementID :=
  cru.block.transactions.flatMap
    (fun t => t.fileContractRevisions.map (fun rev => rev.parent.se.id))

/-- Is the event a `RemoveElement` of one of the given ids? -/
def isRemovalOf (ids : List ElementID) : Event → Bool
  | .removeElement id => decide (id ∈ ids)
  | _ => false

/-- Is the event an `AddFileContractElement` of one of the given ids? -/
def isContractAddOf (ids : List ElementID) : Event → Bool
  | .addFileContractElement el => decide (el.se.id ∈ ids)
  | _ => false

/-- Every `p`-event of the trace occurs strictly before every `q`-event. -/
def allBefore (tr : List Event) (p q : Event → Bool) : Prop :=
  ∀ i j, (h1 : i < tr.length) → (h2 : j < tr.length) →
    p (tr.get ⟨i, h1⟩) = true → q (tr.get ⟨j, h2⟩) = true → i < j

/-- If no `p`-event occurs in the suffix and no `q`-event in the prefix,
then every `p`-event precedes every `q`-event. -/
theorem allBefore_of_split (A B : List Event) (p q : Event → Bool)
    (hB : ∀ ev ∈ B, p ev = false) (hA : ∀ ev ∈ A, q ev = false) :
    allBefore (A ++ B) p q := by
  intro i j h1 h2 hp hq
  rw [List.get_eq_getElem] at hp hq
  have hiA : i < A.length := by
    by_contra hcon
    push_neg at hcon
    rw [List.getElem_append_right hcon] at hp
    rw [hB _ (List.getElem_mem _)] at hp
    exact Bool.noConfusion hp
  have hjB : A.length ≤ j := by
    by_contra hcon
    push_neg at hcon
    rw [List.getElem_append_left hcon] at hq
    rw [hA _ (List.getElem_mem _)] at hq
    exact Bool.noConfusion hq
  omega

/-- The revision parent re-inserted by the witness revert scenario. -/
def c8fcParent : FileContractElement := ⟨⟨⟨4⟩, 0, []⟩, ⟨0, ⟨0, ⟨0⟩⟩, ⟨0, ⟨0⟩⟩⟩⟩

/-- The new file contract removed by the witness revert scenario. -/
def c8fcNew : FileContractElement := ⟨⟨⟨5⟩, 1, []⟩, ⟨0, ⟨0, ⟨0⟩⟩, ⟨0, ⟨0⟩⟩⟩⟩

/-- A transaction with one file-contract revision of `c8fcParent`. -/
def c8txn : Transaction := ⟨⟨3⟩, [], [], [], [], [⟨c8fcParent⟩]⟩

/-- A revert update with one new file contract and one revision parent. -/
def c8cru : RevertUpdate :=
  ⟨⟨⟨1, 1⟩, [c8txn]⟩, ⟨⟨0, 0⟩, 0⟩, [], [], [c8fcNew], [], [], [], []⟩

/-- Claim C8, counterexample: in a revert carrying one new file contract
and one contract revision, the trace is
`[addFileContractElement parent, modifyLeaf, removeElement newId]` — the
removal of the newly added contract (trace position 2) comes AFTER the
revision-parent re-insertion (position 0), refuting the claim that all
step-2 removals precede the step-3 re-insertions. -/
theorem revert_removal_after_reinsert :
    ¬ allBefore (revertEvents c8cru) (isRemovalOf (newlyAddedIds c8cru))
        (isContractAddOf (revParentIds c8cru)) := by
  intro h
  have := h 2 0 (by decide) (by decide) (by decide) (by decide)
  omega

/-- Claim C8, amended: provided the new-contract ids are disjoint from the
ids removed early (new coins, new funds, revised contracts) and the
resolved-contract ids are disjoint from the revision-parent ids, Revert
performs the removals of new coins, new funds and revised contracts before
every revision-parent re-insertion, and removes the new file contracts
only AFTER the revision-parent re-insertions — not before, as the original
claim stated. -/
theorem revert_order (cru : RevertUpdate)
    (hd1 : ∀ id ∈ newFCIds cru, id ∉ earlyRemovedIds cru)
    (hd2 : ∀ id ∈ resolvedIds cru, id ∉ revParentIds cru) :
    allBefore (revertEvents cru) (isRemovalOf (earlyRemovedIds cru))
      (isContractAddOf (revParentIds cru)) ∧
    allBefore (revertEvents cru) (isContractAddOf (revParentIds cru))
      (isRemovalOf (newFCIds cru)) := by
  constructor
  · have hsplit : revertEvents cru
        = (revSpentSC cru ++ revSpentSF cru ++ revResolved cru ++ revNewSC cru
            ++ revNewSF cru ++ revRevised cru)
          ++ (revRevisionParents cru ++ revNewFC cru) := by
      simp [revertEvents, List.append_assoc]
    rw [hsplit]
    refine allBefore_of_split _ _ _ _ ?_ ?_
    · intro ev hev
      rcases List.mem_append.mp hev with h7 | h8
      · simp only [revRevisionParents, List.mem_flatMap, List.mem_cons,
          List.not_mem_nil, or_false] at h7
        obtain ⟨t, _, rev, _, h | h⟩ := h7 <;> subst h <;> rfl
      · simp only [revNewFC, List.mem_map] at h8
        obtain ⟨el, hel, h⟩ := h8
        subst h
        show decide (el.se.id ∈ earlyRemovedIds cru) = false
        exact decide_eq_false
          (hd1 el.se.id (List.mem_map.mpr ⟨el, hel, rfl⟩))
    · intro ev hev
      simp only [List.append_assoc, List.mem_append] at hev
      rcases hev with h1 | h2 | h3 | h4 | h5 | h6
      · simp only [revSpentSC, List.mem_flatMap, List.mem_cons,
          List.not_mem_nil, or_false] at h1
        obtain ⟨el, _, h | h | h⟩ := h1 <;> subst h <;> rfl
      · simp only [revSpentSF, List.mem_flatMap, List.mem_cons,
          List.not_mem_nil, or_false] at h2
        obtain ⟨el, _, h | h | h⟩ := h2 <;> subst h <;> rfl
      · simp only [revResolved, List.mem_flatMap, List.mem_cons,
          List.not_mem_nil, or_false] at h3
        obtain ⟨el, hel, h | h⟩ := h3 <;> subst h
        · show decide (el.se.id ∈ revParentIds cru) = false
          exact decide_eq_false
            (hd2 el.se.id (List.mem_map.mpr ⟨el, hel, rfl⟩))
        · rfl
      · simp only [revNewSC, List.mem_flatMap, List.mem_cons,
          List.not_mem_nil, or_false] at h4
        obtain ⟨el, _, h | h⟩ := h4 <;> subst h <;> rfl
      · simp only [revNewSF, List.mem_flatMap, List.mem_cons,
          List.not_mem_nil, or_false] at h5
        obtain ⟨el, _, h | h⟩ := h5 <;> subst h <;> rfl
      · simp only [revRevised, List.mem_map] at h6
        obtain ⟨el, _, h⟩ := h6
        subst h
        rfl
  · have hsplit : revertEvents cru
        = (revSpentSC cru ++ revSpentSF cru ++ revResolved cru ++ revNewSC cru
            ++ revNewSF cru ++ revRevised cru ++ revRevisionParents cru)
          ++ revNewFC cru := by
      simp [revertEvents, List.append_assoc]
    rw [hsplit]
    refine allBefore_of_split _ _ _ _ ?_ ?_
    · intro ev hev
      simp only [revNewFC, List.mem_map] at hev
      obtain ⟨el, _, h⟩ := hev
      subst h
      rfl
    · intro ev hev
      simp only [List.append_assoc, List.mem_append] at hev
      rcases hev with h1 | h2 | h3 | h4 | h5 | h6 | h7
      · simp only [revSpentSC, List.mem_flatMap, List.mem_cons,
          List.not_mem_nil, or_false] at h1
        obtain ⟨el, _, h | h | h⟩ := h1 <;> subst h <;> rfl
      · simp only [revSpentSF, List.mem_flatMap, List.mem_cons,
          List.not_mem_nil, or_false] at h2
        obtain ⟨el, _, h | h | h⟩ := h2 <;> subst h <;> rfl
      · simp only [revResolved, List.mem_flatMap, List.mem_cons,
          List.not_mem_nil, or_false] at h3
        obtain ⟨el, _, h | h⟩ := h3 <;> subst h <;> rfl
      · simp only [revNewSC, List.mem_flatMap, List.mem_cons,
          List.not_mem_nil, or_false] at h4
        obtain ⟨el, hel, h | h⟩ := h4 <;> subst h
        · show decide (el.se.id ∈ newFCIds cru) = false
          refine decide_eq_false ?_
          intro hmem
          exact hd1 el.se.id hmem
            (by rw [earlyRemovedIds]
                exact List.mem_append.mpr (Or.inl (List.mem_append.mpr
                  (Or.inl (List.mem_map.mpr ⟨el, hel, rfl⟩)))))
        · rfl
      · simp only [revNewSF, List.mem_flatMap, List.mem_cons,
          List.not_mem_nil, or_false] at h5
        obtain ⟨el, hel, h | h⟩ := h5 <;> subst h
        · show decide (el.se.id ∈ newFCIds cru) = false
          refine decide_eq_false ?_
          intro hmem
          exact hd1 el.se.id hmem
            (by rw [earlyRemovedIds]
                exact List.mem_append.mpr (Or.inl (List.mem_append.mpr
                  (Or.inr (List.mem_map.mpr ⟨el, hel, rfl⟩)))))
        · rfl
      · simp only [revRevised, List.mem_map] at h6
        obtain ⟨el, hel, h⟩ := h6
        subst h
        show decide (el.se.id ∈ newFCIds cru) = false
        refine decide_eq_false ?_
        intro hmem
        exact hd1 el.se.id hmem
          (by rw [earlyRemovedIds]
              exact List.mem_append.mpr (Or.inr (List.mem_map.mpr ⟨el, hel, rfl⟩)))
      · simp only [revRevisionParents, List.mem_flatMap, List.mem_cons,
          List.not_mem_nil, or_false] at h7
        obtain ⟨t, _, rev, _, h | h⟩ := h7 <;> subst h <;> rfl

/-- A new siacoin element for the C8 witness scenario. -/
def c8sc : SiacoinElement := ⟨⟨⟨10⟩, 2, []⟩, ⟨0⟩, 1, 0⟩

/-- A revised file contract for the C8 witness scenario. -/
def c8fcRevised : FileContractElement := ⟨⟨⟨7⟩, 3, []⟩, ⟨0, ⟨0, ⟨0⟩⟩, ⟨0, ⟨0⟩⟩⟩⟩

/-- A resolved file contract for the C8 witness scenario. -/
def c8fcResolved : FileContractElement := ⟨⟨⟨6⟩, 4, []⟩, ⟨0, ⟨0, ⟨0⟩⟩, ⟨0, ⟨0⟩⟩⟩⟩

/-- A revert update exercising all segments relevant to the ordering
claim. -/
def c8cruW : RevertUpdate :=
  ⟨⟨⟨1, 1⟩, [c8txn]⟩, ⟨⟨0, 0⟩, 0⟩, [c8sc], [], [c8fcNew], [c8fcRevised],
   [], [], [c8fcResolved]⟩

/-- Claim C8, witness for the amended ordering statement on a revert
update with a new coin, a revised contract, a resolved contract, a new
contract and a revision parent. -/
theorem revert_order_witness :
    ((∀ id ∈ newFCIds c8cruW, id ∉ earlyRemovedIds c8cruW) ∧
     (∀ id ∈ resolvedIds c8cruW, id ∉ revParentIds c8cruW)) ∧
    (allBefore (revertEvents c8cruW) (isRemovalOf (earlyRemovedIds c8cruW))
       (isContractAddOf (revParentIds c8cruW)) ∧
     allBefore (revertEvents c8cruW) (isContractAddOf (revParentIds c8cruW))
       (isRemovalOf (newFCIds c8cruW))) :=
  ⟨⟨by decide, by decide⟩, revert_order c8cruW (by decide) (by decide)⟩

/-! ## API server route table (`api/server.go`)

Only the pieces the per-address element routes need are modelled: the two
`api.Explorer` read methods the handlers call (as oracles), the handler
bodies, and the route table registered by `NewServer` with each pattern's
registered handler function. -/

/-- HTTP method of a route registration. -/
inductive Method
  | GET
  | POST
deriving DecidableEq, Repr

/-- The handler functions of the `api` server, by name. -/
inductive HandlerTag
  | txpoolTransactionsHandler
  | txpoolBroadcastHandler
  | syncerPeersHandler
  | syncerConnectHandler
  | elementSearchHandler
  | elementSiacoinHandler
  | elementSiafundHandler
  | elementContractHandler
  | chainStatsHandler
  | chainStateHandler
  | transactionHandler
  | addressBalanceHandler
  | addressSiacoinsHandler
  | addressSiafundsHandler
  | addressTransactionsHandler
  | batchAddressesBalanceHandler
  | batchAddressesSiacoinsHandler
  | batchAddressesSiafundsHandler
  | batchAddressesTransactionsHandler
deriving DecidableEq, Repr

/-- The route table registered by `NewServer` (server.go lines 416-440),
in registration order.  Note line 434: the `/address/:address/siafunds`
route is registered with `srv.addressSiacoinsHandler`. -/
def serverRoutes : List (Method × String × HandlerTag) :=
  [ (Method.GET, "/txpool/transactions", HandlerTag.txpoolTransactionsHandler),
    (Method.POST, "/txpool/broadcast", HandlerTag.txpoolBroadcastHandler),
    (Method.GET, "/syncer/peers", HandlerTag.syncerPeersHandler),
    (Method.POST, "/syncer/connect", HandlerTag.syncerConnectHandler),
    (Method.GET, "/element/search/:id", HandlerTag.elementSearchHandler),
    (Method.GET, "/element/siacoin/:id", HandlerTag.elementSiacoinHandler),
    (Method.GET, "/element/siafund/:id", HandlerTag.elementSiafundHandler),
    (Method.GET, "/element/contract/:id", HandlerTag.elementContractHandler),
    (Method.GET, "/chain/:index", HandlerTag.chainStatsHandler),
    (Method.GET, "/chain/:index/state", HandlerTag.chainStateHandler),
    (Method.GET, "/transaction/:id", HandlerTag.transactionHandler),
    (Method.GET, "/address/:address/balance", HandlerTag.addressBalanceHandler),
    (Method.GET, "/address/:address/siacoins", HandlerTag.addressSiacoinsHandler),
    (Method.GET, "/address/:address/siafunds", HandlerTag.addressSiacoinsHandler),
    (Method.GET, "/address/:address/transactions", HandlerTag.addressTransactionsHandler),
    (Method.POST, "/batch/addresses/balance", HandlerTag.batchAddressesBalanceHandler),
    (Method.POST, "/batch/addresses/siacoins", HandlerTag.batchAddressesSiacoinsHandler),
    (Method.POST, "/batch/addresses/siafunds", HandlerTag.batchAddressesSiafundsHandler),
    (Method.POST, "/batch/addresses/transactions", HandlerTag.batchAddressesTransactionsHandler) ]

/-- The handler `httprouter` dispatches to for a method and path
pattern. -/
def findRoute (m : Method) (p : String) : Option HandlerTag :=
  (serverRoutes.find? (fun r => r.1 == m && r.2.1 == p)).map (fun r => r.2.2)

/-- The two `api.Explorer` read methods used by the per-address element
handlers, as oracles over the store. -/
structure ExplorerReads where
  unspentSiacoinElements : Address → Except DBErr (List ElementID)
  unspentSiafundElements : Address → Except DBErr (List ElementID)

/-- Outcome of a per-address element handler: the JSON-encoded id list, or
an HTTP 400 carrying the error. -/
inductive HandlerResult
  | ok (ids : List ElementID)
  | badRequest (e : DBErr)
deriving DecidableEq, Repr

/-- `addressSiacoinsHandler` (server.go lines 231-243): call
`UnspentSiacoinElements`; 400 on error, else the JSON list. -/
def addressSiacoinsHandler (e : ExplorerReads) (addr : Address) : HandlerResult :=
  match e.unspentSiacoinElements addr with
  | .ok ids => .ok ids
  | .error err => .badRequest err

/-- `addressSiafundsHandler` (server.go lines 245-257): call
`UnspentSiafundElements`; 400 on error, else the JSON list.  `NewServer`
never registers this handler. -/
def addressSiafundsHandler (e : ExplorerReads) (addr : Address) : HandlerResult :=
  match e.unspentSiafundElements addr with
  | .ok ids => .ok ids
  | .error err => .badRequest err

/-- Serve a GET on one of the two per-address element routes by
dispatching through the registered route table. -/
def serveAddressRoute (e : ExplorerReads) (p : String) (addr : Address) :
    Option HandlerResult :=
  match findRoute Method.GET p with
  | some HandlerTag.addressSiacoinsHandler => some (addressSiacoinsHandler e addr)
  | some HandlerTag.addressSiafundsHandler => some (addressSiafundsHandler e addr)
  | _ => none

/-- Claim C6, divergence: `NewServer` registers `addressSiacoinsHandler`
for `/address/:address/siafunds` (server.go line 434), so a GET on the
siafunds route responds with `UnspentSiacoinElements(addr)` — here `[1]` —
while `unspent_siafund_elements(addr)` is `[2]`; the repo's own
`addressSiafundsHandler`, which would return `[2]`, is never registered. -/
theorem siafunds_route_returns_siacoins :
    findRoute Method.GET "/address/:address/siafunds"
      = some HandlerTag.addressSiacoinsHandler ∧
    serveAddressRoute
      ⟨fun _ => .ok [⟨1⟩], fun _ => .ok [⟨2⟩]⟩ "/address/:address/siafunds" ⟨0⟩
      = some (.ok [⟨1⟩]) ∧
    addressSiafundsHandler ⟨fun _ => .ok [⟨1⟩], fun _ => .ok [⟨2⟩]⟩ ⟨0⟩
      = .ok [⟨2⟩] ∧
    ((HandlerResult.ok [⟨1⟩]) ≠ (HandlerResult.ok [⟨2⟩])) :=
  ⟨rfl, rfl, rfl, by decide⟩

end ExplorerModel
